import Mathlib

/-!
Verification development for the foxy-backend transaction-bundle subsystem.

This file shallowly embeds the two-leg transaction-bundle data model, the
event-sourced state machine, the event store, the broadcaster work-item loop,
the watcher poll loops and the projection layer of the repository, and proves
properties about them.

Modelling conventions:
  * machine integers (u64, u128) are modelled as Nat; none of the embedded
    code paths perform arithmetic on them, so no overflow wrapping arises;
  * DateTime values are modelled as Nat instants; the rfc3339 rendering used
    for sort keys is modelled by an injective rendering to String;
  * f64 fields (exchange_rate, the derived display amount) are omitted; no
    embedded claim depends on their values;
  * the DynamoDB item written by the event store is modelled structurally
    (typed fields instead of stringified attribute values, the bundle
    snapshot held as a value instead of a JSON blob);
  * external oracles (the chain RPC, the SQS queue) are modelled as explicit
    inputs to the per-item worker functions; the keccak256 hash function is
    passed as a parameter.
-/

/-- src/foxy-shared/src/models/transactions.rs: BundleStatus. -/
inductive BundleStatus
  | Initiated
  | Signed
  | MainConfirmed
  | Completed
  | Failed
  | Cancelled
  | Errored
deriving DecidableEq

/-- src/foxy-shared/src/models/transactions.rs: TransactionStatus. -/
inductive TransactionStatus
  | Created
  | Signed
  | Pending
  | Confirmed
  | Failed
  | Cancelled
  | Error
deriving DecidableEq

/-- src/foxy-shared/src/models/transactions.rs: EventType (two-leg model). -/
inductive EventType
  | Initiate
  | Sign
  | Broadcast
  | Confirm
  | Fail
  | Cancel
  | Error
deriving DecidableEq

/-- src/foxy-shared/src/models/transactions.rs: TransactionLeg. -/
inductive TransactionLeg
  | Fee
  | Main
deriving DecidableEq

/-- src/foxy-shared/src/models/transactions.rs: TokenType. -/
inductive TokenType
  | ETH
  | USDC
deriving DecidableEq

/-- src/foxy-shared/src/models/transactions.rs: PriorityLevel. -/
inductive PriorityLevel
  | Standard
  | Fast
  | Urgent
deriving DecidableEq

/-- src/foxy-shared/src/models/transactions.rs: Network. -/
inductive Network
  | EthereumMainnet
  | EthereumSepolia
  | OptimismMainnet
  | OptimismSepolia
deriving DecidableEq

/-- src/foxy-shared/src/models/transactions.rs: Direction. -/
inductive Direction
  | Incoming
  | Outgoing
deriving DecidableEq

/-- src/foxy-shared/src/models/transactions.rs: PartyDetails. -/
structure PartyDetails where
  user_id : String
  name : String
  wallet : String
deriving DecidableEq

/-- src/foxy-shared/src/models/transactions.rs: GeoLocation. -/
structure GeoLocation where
  latitude : String
  longitude : String
deriving DecidableEq

/-- src/foxy-shared/src/models/transactions.rs: GasPricing. -/
structure GasPricing where
  estimated_gas : String
  gas_price : String
  max_fee_per_gas : String
  max_priority_fee_per_gas : String
deriving DecidableEq

/-- src/foxy-shared/src/models/transactions.rs: Transaction (one leg).
    Numeric wire types are modelled as Nat, timestamps as Nat instants and
    the f64 field exchange_rate is omitted (no embedded path reads it). -/
structure Transaction where
  transaction_id : String
  user_id : String
  sender_address : String
  recipient_address : String
  transaction_value : Nat
  token_type : TokenType
  status : TransactionStatus
  network_fee : Nat
  service_fee : Nat
  total_fees : Nat
  fiat_value : Nat
  fiat_currency : String
  chain_id : Nat
  signed_tx : Option String
  transaction_hash : Option String
  event_log : Option String
  priority_level : PriorityLevel
  network : Network
  gas_price : Option Nat
  gas_used : Option Nat
  gas_limit : Option Nat
  nonce : Option Nat
  max_fee_per_gas : Option Nat
  max_priority_fee_per_gas : Option Nat
  total_fee_paid : Option Nat
  block_number : Option Nat
  receipt_status : Option Nat
  contract_address : Option String
  approval_tx_hash : Option String
  recipient_tx_hash : Option String
  fee_tx_hash : Option String
  created_at : Nat
deriving DecidableEq

/-- src/foxy-shared/src/models/transactions.rs: BundleMetadata.
    The f64 field exchange_rate is omitted. -/
structure BundleMetadata where
  display_currency : String
  expected_currency_amount : Nat
  message : Option String
  sender : Option PartyDetails
  recipient : Option PartyDetails
  app_version : Option String
  location : Option GeoLocation
  service_fee : Nat
  network_fee : Nat
  gas_pricing : GasPricing
deriving DecidableEq

/-- src/foxy-shared/src/models/transactions.rs: TransactionBundle. -/
structure TransactionBundle where
  bundle_id : String
  user_id : String
  status : BundleStatus
  fee_tx : Transaction
  main_tx : Transaction
  metadata : Option BundleMetadata
  created_at : Nat
  updated_at : Nat
deriving DecidableEq

/-- src/foxy-shared/src/models/transactions.rs: TransactionEvent
    (the immutable log record wrapping a bundle snapshot). -/
structure TransactionEvent where
  event_id : String
  bundle_id : String
  user_id : String
  event_type : EventType
  leg : Option TransactionLeg
  created_at : Nat
  bundle_status : Option BundleStatus
  transaction_status : Option TransactionStatus
  bundle_snapshot : TransactionBundle
deriving DecidableEq

/-- src/foxy-shared/src/models/errors.rs: the TransactionError variants the
    embedded code paths construct.  models/transactions.rs constructs an
    InvalidTransition(String) variant, which we model directly. -/
inductive TransactionError
  | InvalidTransition (msg : String)
  | MissingSignatureData (msg : String)
  | MissingGasEstimate
  | DatabaseError (msg : String)
  | StateMachine (msg : String)
deriving DecidableEq

/-- src/foxy-shared/src/database/errors.rs: the DynamoDbError variants the
    embedded code paths construct. -/
inductive DynamoDbError
  | AlreadyPersisted (msg : String)
  | Deserialization (msg : String)
  | Serialization (msg : String)
  | DynamoDbOperation (msg : String)
  | NotFound
deriving DecidableEq

namespace Transaction

/-- src/foxy-shared/src/models/transactions.rs: Transaction::with_status. -/
def with_status (t : Transaction) (status : TransactionStatus) : Transaction :=
  { t with status := status }

/-- src/foxy-shared/src/models/transactions.rs: Transaction::with_signed_tx. -/
def with_signed_tx (t : Transaction) (signed : String) : Transaction :=
  { t with signed_tx := some signed }

/-- src/foxy-shared/src/models/transactions.rs: Transaction::with_transaction_hash. -/
def with_transaction_hash (t : Transaction) (hash : String) : Transaction :=
  { t with transaction_hash := some hash }

/-- Modelled from the spec: the builder-style with_block_number transform is
    called by the watchers (poll_confirmations.rs, poll_finalizations.rs) but
    its definition is not among the provided sources; spec section 3 lists
    builder-style with transforms returning a copy with one field replaced. -/
def with_block_number (t : Transaction) (block : Option Nat) : Transaction :=
  { t with block_number := block }

/-- Modelled from the spec: the builder-style with_receipt_status transform is
    called by poll_finalizations.rs but its definition is not among the
    provided sources; spec section 3 lists builder-style with transforms
    returning a copy with one field replaced. -/
def with_receipt_status (t : Transaction) (status : Option Nat) : Transaction :=
  { t with receipt_status := status }

end Transaction

/-- Renders a Nat instant, modelling DateTime::to_rfc3339 on the modelled
    clock (used for the monotone event-store sort key). -/
def timeStr (n : Nat) : String :=
  "T" ++ toString n

/-- Models Uuid::new_v4 at the event store: ids are generated from the store
    state counter, giving fresh, non-empty ids. -/
def genId (n : Nat) : String :=
  "evt-" ++ toString n

/-- Models ethers format with the hash rendered 0x-prefixed in hex. -/
def hexStr (n : Nat) : String :=
  "0x" ++ (Nat.toDigits 16 n).asString

/-- The DynamoDB item written by
    src/foxy-shared/src/database/transaction_event.rs: to_dynamo_item,
    modelled structurally: enum-valued attributes are kept typed and the
    BundleSnapshot attribute holds the bundle value instead of JSON text. -/
structure StoredEventItem where
  pk : String
  sk : String
  event_id : String
  user_id : String
  event_type : EventType
  created_at : String
  bundle_snapshot : TransactionBundle
  leg : Option TransactionLeg
  transaction_status : Option TransactionStatus
  bundle_status : Option BundleStatus
deriving DecidableEq

/-- The event store state: the appended items plus the id-generation and
    clock state consumed by to_dynamo_item (Uuid::new_v4 and Utc::now). -/
structure EventStore where
  items : List StoredEventItem
  next_id : Nat
  now : Nat
deriving DecidableEq

namespace TransactionEventManager

/-- src/foxy-shared/src/database/transaction_event.rs:
    TransactionEventManager::persist.  Rejects an event that already has a
    non-empty event_id with AlreadyPersisted before any write; otherwise
    builds the item via to_dynamo_item (which generates the fresh EventID and
    the timestamp) and appends it, returning the store-assigned id.  The
    best-effort projection triggers that follow the durable write are
    modelled separately (their failures never fail this write). -/
def persist (store : EventStore) (event : TransactionEvent) :
    Except DynamoDbError (String × EventStore) :=
  if event.event_id ≠ "" then
    .error (.AlreadyPersisted
      ("Attempted to persist an event that already has event_id: " ++ event.event_id))
  else
    let event_id := genId store.next_id
    let timestamp := timeStr store.now
    let item : StoredEventItem :=
      { pk := "Bundle#" ++ event.bundle_id
        sk := "Event#" ++ timestamp
        event_id := event_id
        user_id := event.user_id
        event_type := event.event_type
        created_at := timestamp
        bundle_snapshot := event.bundle_snapshot
        leg := event.leg
        transaction_status := event.transaction_status
        bundle_status := event.bundle_status }
    .ok (event_id,
      { items := store.items ++ [item], next_id := store.next_id + 1, now := store.now })

end TransactionEventManager

/-- models/errors.rs: From DynamoDbError for TransactionError
    (DatabaseError wrapping the debug rendering). -/
def dbToTx : DynamoDbError → TransactionError
  | .AlreadyPersisted m => .DatabaseError ("AlreadyPersisted: " ++ m)
  | .Deserialization m => .DatabaseError ("Deserialization: " ++ m)
  | .Serialization m => .DatabaseError ("Serialization: " ++ m)
  | .DynamoDbOperation m => .DatabaseError ("DynamoDbOperation: " ++ m)
  | .NotFound => .DatabaseError "NotFound"

namespace TransactionEvent

/-- src/foxy-shared/src/models/transactions.rs: TransactionEvent::on_signed.
    The event store handle is threaded as explicit state; the pair returns
    the call result together with the store as left behind by the call. -/
def on_signed (store : EventStore) (last_event : TransactionEvent)
    (fee_signed main_signed : String) :
    Except TransactionError TransactionEvent × EventStore :=
  if last_event.event_type ≠ EventType.Initiate then
    (.error (.InvalidTransition "Signing is only valid after Initiate"), store)
  else if last_event.bundle_status ≠ some BundleStatus.Initiated then
    (.error (.InvalidTransition "Cannot sign from status"), store)
  else
    let bundle := last_event.bundle_snapshot
    let fee_tx := (bundle.fee_tx.with_signed_tx fee_signed).with_status TransactionStatus.Signed
    let main_tx := (bundle.main_tx.with_signed_tx main_signed).with_status TransactionStatus.Signed
    let bundle :=
      { bundle with
          fee_tx := fee_tx
          main_tx := main_tx
          status := BundleStatus.Signed
          updated_at := store.now }
    let event : TransactionEvent :=
      { event_id := ""
        bundle_id := bundle.bundle_id
        user_id := last_event.user_id
        event_type := EventType.Sign
        leg := none
        bundle_status := some BundleStatus.Signed
        transaction_status := none
        created_at := store.now
        bundle_snapshot := bundle }
    match TransactionEventManager.persist store event with
    | .error e => (.error (dbToTx e), store)
    | .ok (assigned_event_id, store') =>
        (.ok { event with event_id := assigned_event_id }, store')

/-- The tail of on_broadcast after the broadcastable leg has been selected:
    writes the mutated leg back into the bundle copy, constructs the
    Broadcast event (bundle status unchanged) and persists it. -/
def broadcastFinish (store : EventStore) (last_event : TransactionEvent)
    (bundle : TransactionBundle) (leg : TransactionLeg) (tx : Transaction) :
    Except TransactionError TransactionEvent × EventStore :=
  let bundle :=
    match leg with
    | TransactionLeg.Main => { bundle with main_tx := tx }
    | TransactionLeg.Fee => { bundle with fee_tx := tx }
  let bundle := { bundle with updated_at := store.now }
  let event : TransactionEvent :=
    { event_id := ""
      bundle_id := bundle.bundle_id
      user_id := last_event.user_id
      event_type := EventType.Broadcast
      leg := some leg
      bundle_status := some bundle.status
      transaction_status := none
      created_at := store.now
      bundle_snapshot := bundle }
  match TransactionEventManager.persist store event with
  | .error e => (.error (dbToTx e), store)
  | .ok (assigned_event_id, store') =>
      (.ok { event with event_id := assigned_event_id }, store')

/-- src/foxy-shared/src/models/transactions.rs: TransactionEvent::on_broadcast.
    Guards on the last event type and bundle_status field, then selects the
    leg from the (event type, snapshot status) pair: (Sign, Signed) means the
    main leg, (Confirm, MainConfirmed) means the fee leg, anything else is an
    invalid transition. -/
def on_broadcast (store : EventStore) (last_event : TransactionEvent) (tx_hash : Nat) :
    Except TransactionError TransactionEvent × EventStore :=
  if last_event.event_type ≠ EventType.Confirm ∧ last_event.event_type ≠ EventType.Sign then
    (.error (.InvalidTransition "Broadcasting is only valid after signing or confirm"), store)
  else if last_event.bundle_status ≠ some BundleStatus.Signed ∧
      last_event.bundle_status ≠ some BundleStatus.MainConfirmed then
    (.error (.InvalidTransition "Cannot broadcast from status"), store)
  else
    let bundle := last_event.bundle_snapshot
    let hash_str := hexStr tx_hash
    match last_event.event_type, bundle.status with
    | EventType.Sign, BundleStatus.Signed =>
        broadcastFinish store last_event bundle TransactionLeg.Main
          ((bundle.main_tx.with_transaction_hash hash_str).with_status TransactionStatus.Pending)
    | EventType.Confirm, BundleStatus.MainConfirmed =>
        broadcastFinish store last_event bundle TransactionLeg.Fee
          ((bundle.fee_tx.with_transaction_hash hash_str).with_status TransactionStatus.Pending)
    | _, _ =>
        (.error (.InvalidTransition "Not a broadcastable state"), store)

/-- src/foxy-shared/src/models/transactions.rs: TransactionEvent::on_fail.
    Note: the source performs no precondition check on the last event; it
    marks the given leg Failed, sets the bundle status to Failed and
    persists, whatever the last event was. -/
def on_fail (store : EventStore) (last_event : TransactionEvent) (leg : TransactionLeg) :
    Except TransactionError TransactionEvent × EventStore :=
  let bundle := last_event.bundle_snapshot
  let bundle :=
    match leg with
    | TransactionLeg.Fee =>
        { bundle with fee_tx := bundle.fee_tx.with_status TransactionStatus.Failed }
    | TransactionLeg.Main =>
        { bundle with main_tx := bundle.main_tx.with_status TransactionStatus.Failed }
  let bundle := { bundle with status := BundleStatus.Failed, updated_at := store.now }
  let event : TransactionEvent :=
    { event_id := ""
      bundle_id := bundle.bundle_id
      user_id := last_event.user_id
      event_type := EventType.Fail
      leg := some leg
      bundle_status := some BundleStatus.Failed
      transaction_status := some TransactionStatus.Failed
      created_at := store.now
      bundle_snapshot := bundle }
  match TransactionEventManager.persist store event with
  | .error e => (.error (dbToTx e), store)
  | .ok (assigned_id, store') =>
      (.ok { event with event_id := assigned_id }, store')

/-- src/foxy-shared/src/models/transactions.rs: TransactionEvent::on_error.
    Like on_fail, the source performs no precondition check on the last
    event. -/
def on_error (store : EventStore) (last_event : TransactionEvent) (leg : TransactionLeg) :
    Except TransactionError TransactionEvent × EventStore :=
  let bundle := last_event.bundle_snapshot
  let bundle :=
    match leg with
    | TransactionLeg.Fee =>
        { bundle with fee_tx := bundle.fee_tx.with_status TransactionStatus.Error }
    | TransactionLeg.Main =>
        { bundle with main_tx := bundle.main_tx.with_status TransactionStatus.Error }
  let bundle := { bundle with status := BundleStatus.Errored, updated_at := store.now }
  let event : TransactionEvent :=
    { event_id := ""
      bundle_id := bundle.bundle_id
      user_id := last_event.user_id
      event_type := EventType.Error
      leg := some leg
      bundle_status := some BundleStatus.Errored
      transaction_status := some TransactionStatus.Error
      created_at := store.now
      bundle_snapshot := bundle }
  match TransactionEventManager.persist store event with
  | .error e => (.error (dbToTx e), store)
  | .ok (assigned_id, store') =>
      (.ok { event with event_id := assigned_id }, store')

end TransactionEvent

/-- src/foxy-shared/src/state_machine/transaction_event_factory.rs uses a
    previous-generation event vocabulary (Creation, Signing, Broadcasting)
    that is not part of the two-leg EventType enum; it is embedded under its
    own type. -/
inductive LegacyEventType
  | Creation
  | Signing
  | Broadcasting
deriving DecidableEq

/-- src/foxy-shared/src/state_machine/transaction_event_factory.rs:
    the previous-generation single-transaction TransactionEvent. -/
structure FactoryTransactionEvent where
  event_id : String
  transaction_id : String
  user_id : String
  event_type : LegacyEventType
  status : TransactionStatus
  created_at : Nat
  sender_address : String
  recipient_address : String
  transaction : Transaction
deriving DecidableEq

namespace TransactionEventFactory

/-- src/foxy-shared/src/state_machine/transaction_event_factory.rs:
    TransactionEventFactory::created_signed_event.  Raises
    MissingSignatureData and produces no event when the supplied transaction
    carries no signed payload. -/
def created_signed_event (last_event : FactoryTransactionEvent) (new_tx : Transaction)
    (now : Nat) : Except TransactionError (Option FactoryTransactionEvent) :=
  if new_tx.signed_tx = none then
    .error (.MissingSignatureData "transaction_hash is required for signed state")
  else
    .ok (some
      { event_id := ""
        transaction_id := new_tx.transaction_id
        user_id := last_event.user_id
        event_type := LegacyEventType.Signing
        status := TransactionStatus.Signed
        created_at := now
        sender_address := new_tx.sender_address
        recipient_address := new_tx.recipient_address
        transaction := new_tx })

end TransactionEventFactory

/-- Modelled from the spec: TransactionEvent::on_confirmed is called by both
    watcher loops (poll_confirmations.rs line 71, poll_finalizations.rs line
    75) but its definition is not among the provided sources.  Spec section
    4.2: a Confirm transition affects the leg matching the context and a
    Main confirm yields bundle status MainConfirmed while a Fee confirm
    yields Completed; the next event carries a full bundle copy with only
    the relevant leg mutated.  The watchers persist the returned event
    themselves, so the construction is pure. -/
def TransactionEvent.on_confirmed (last_event : TransactionEvent)
    (updated_tx : Transaction) (now : Nat) :
    Except TransactionError TransactionEvent :=
  match last_event.leg with
  | some TransactionLeg.Main =>
      let bundle :=
        { last_event.bundle_snapshot with
            main_tx := updated_tx
            status := BundleStatus.MainConfirmed
            updated_at := now }
      .ok
        { event_id := ""
          bundle_id := bundle.bundle_id
          user_id := last_event.user_id
          event_type := EventType.Confirm
          leg := some TransactionLeg.Main
          bundle_status := some BundleStatus.MainConfirmed
          transaction_status := some updated_tx.status
          created_at := now
          bundle_snapshot := bundle }
  | some TransactionLeg.Fee =>
      let bundle :=
        { last_event.bundle_snapshot with
            fee_tx := updated_tx
            status := BundleStatus.Completed
            updated_at := now }
      .ok
        { event_id := ""
          bundle_id := bundle.bundle_id
          user_id := last_event.user_id
          event_type := EventType.Confirm
          leg := some TransactionLeg.Fee
          bundle_status := some BundleStatus.Completed
          transaction_status := some updated_tx.status
          created_at := now
          bundle_snapshot := bundle }
  | none => .error (.InvalidTransition "Confirm requires a leg context")

/-- Hex digit value, as used by the hex crate decoder. -/
def hexDigit (c : Char) : Option Nat :=
  if ('0' ≤ c ∧ c ≤ '9') then some (c.toNat - '0'.toNat)
  else if ('a' ≤ c ∧ c ≤ 'f') then some (c.toNat - 'a'.toNat + 10)
  else if ('A' ≤ c ∧ c ≤ 'F') then some (c.toNat - 'A'.toNat + 10)
  else none

/-- hex::decode on a char list: consumes pairs of hex digits into bytes,
    failing on an odd length or a non-hex character. -/
def hexPairs : List Char → Option (List Nat)
  | [] => some []
  | [_] => none
  | a :: b :: rest => do
      let hi ← hexDigit a
      let lo ← hexDigit b
      let tail ← hexPairs rest
      pure ((hi * 16 + lo) :: tail)

/-- str::trim_start_matches with the pattern 0x: strips every leading
    occurrence. -/
def trim0x : List Char → List Char
  | '0' :: 'x' :: rest => trim0x rest
  | l => l

/-- hex::decode(signing_data.trim_start_matches(0x)) from
    broadcast_handler.rs. -/
def hexDecode (s : String) : Option (List Nat) :=
  hexPairs (trim0x s.data)

/-- The observable side effects of one broadcaster work item, in program
    order (src/foxy-broadcaster/src/broadcast_handler.rs). -/
inductive BAction
  | cacheReserve (h : Nat)
  | chainSubmit
  | chainLookup
  | recordBroadcast
  | recordFail
  | ackMessage
  | emitDuplicate
  | emitFatal
deriving DecidableEq

/-- Outcome of provider.get_transaction(tx_hash) in the recovery path. -/
inductive LookupResult
  | found
  | notFound
  | lookupErr
deriving DecidableEq

/-- Result of one broadcaster work item: the Ok/Err worker outcome, the
    dedup cache and event store left behind, and the action trace. -/
structure BItemResult where
  ok : Bool
  cache : List Nat
  store : EventStore
  actions : List BAction
deriving DecidableEq

/-- broadcast_handler.rs lines 121-129: which leg is broadcastable, inferred
    from (last event type, snapshot bundle status), with its signed payload. -/
def legAndData (last_event : TransactionEvent) :
    Option (TransactionLeg × Option String) :=
  match last_event.event_type, last_event.bundle_snapshot.status with
  | EventType.Sign, BundleStatus.Signed =>
      some (TransactionLeg.Main, last_event.bundle_snapshot.main_tx.signed_tx)
  | EventType.Confirm, BundleStatus.MainConfirmed =>
      some (TransactionLeg.Fee, last_event.bundle_snapshot.fee_tx.signed_tx)
  | _, _ => none

/-- One broadcaster work item, mirroring the spawned task body of
    function_handler_with_cache (broadcast_handler.rs lines 112-210).
    The latest event is taken as already resolved; keccak is the ethers
    keccak256 passed as a parameter; submitOk is the outcome of
    eth_sendRawTransaction and lookup the outcome of the recovery
    get_transaction call.  The cache is the shared recent-hash VecDeque
    (head = oldest); the critical section reserves the slot before the
    chain call. -/
def broadcast_item (keccak : List Nat → Nat) (store : EventStore)
    (cache : List Nat) (last_event : TransactionEvent)
    (submitOk : Bool) (lookup : LookupResult) : BItemResult :=
  match legAndData last_event with
  | none => { ok := false, cache := cache, store := store, actions := [] }
  | some (leg, signing_data) =>
    match signing_data with
    | none => { ok := false, cache := cache, store := store, actions := [] }
    | some signing_data =>
      match hexDecode signing_data with
      | none => { ok := false, cache := cache, store := store, actions := [] }
      | some tx_bytes =>
        let tx_hash := keccak tx_bytes
        if cache.contains tx_hash then
          { ok := true, cache := cache, store := store, actions := [.emitDuplicate] }
        else
          let cache := cache ++ [tx_hash]
          let cache := if cache.length > 10 then cache.tail else cache
          if submitOk then
            let (_, store') := TransactionEvent.on_broadcast store last_event tx_hash
            { ok := true, cache := cache, store := store',
              actions := [.cacheReserve tx_hash, .chainSubmit, .recordBroadcast, .ackMessage] }
          else
            match lookup with
            | LookupResult.found =>
                { ok := true, cache := cache, store := store,
                  actions := [.cacheReserve tx_hash, .chainSubmit, .chainLookup, .ackMessage] }
            | LookupResult.notFound =>
                let (_, store') := TransactionEvent.on_fail store last_event leg
                { ok := false, cache := cache, store := store',
                  actions := [.cacheReserve tx_hash, .chainSubmit, .chainLookup,
                              .recordFail, .ackMessage, .emitFatal] }
            | LookupResult.lookupErr =>
                let (_, store') := TransactionEvent.on_fail store last_event leg
                { ok := false, cache := cache, store := store',
                  actions := [.cacheReserve tx_hash, .chainSubmit, .chainLookup,
                              .recordFail, .ackMessage, .emitFatal] }

/-- Modelled from the spec: the TransactionStatusView row type is imported
    by database/transaction_event.rs and read by both watchers, but its
    definition is not among the provided sources.  Spec section 4.3: one
    row per transaction holding current status, tx hash, block number, user
    id and updated-at; the watchers additionally read a bundle id. -/
structure TransactionStatusView where
  pk : String
  bundle_id : Option String
  tx_hash : Option String
  user_id : Option String
  status : Option TransactionStatus
  block_number : Option Nat
  updated_at : Option String
deriving DecidableEq

/-- An eth_getTransactionReceipt result (the fields the watchers read). -/
structure Receipt where
  block_number : Option Nat
  status : Option Nat
deriving DecidableEq

/-- H256 parsing of a stored tx-hash string: 0x followed by 64 hex digits. -/
def parseH256 (s : String) : Option Nat :=
  match s.data with
  | '0' :: 'x' :: rest =>
      if rest.length = 64 ∧ rest.all (fun c => (hexDigit c).isSome) then
        some (rest.foldl (fun acc c => acc * 16 + ((hexDigit c).getD 0)) 0)
      else none
  | _ => none

/-- Per-view outcome of one confirmation-watcher iteration step
    (src/foxy-watcher/src/poll_confirmations.rs).  abort* outcomes are the
    per-item early returns that abort the whole poll; skip*/stillPending are
    the continue branches. -/
inductive ConfirmStep
  | abortMissingHash
  | abortLoadEvent
  | skipAlreadyConfirmed
  | abortBadHash
  | skipWrongLeg
  | stillPending
  | abortReceipt
  | abortConfirm
  | abortPersist
  | confirmedEvent (ev : TransactionEvent)
deriving DecidableEq

/-- One view of the confirmation watcher loop body
    (poll_confirmations.rs lines 25-91), with the latest-event load and the
    receipt fetch supplied as resolved inputs. -/
def confirm_item (view : TransactionStatusView)
    (latest : Except DynamoDbError TransactionEvent)
    (receipt : Except Unit (Option Receipt)) (store : EventStore) :
    ConfirmStep × EventStore :=
  match view.tx_hash with
  | none => (.abortMissingHash, store)
  | some tx_hash =>
    match latest with
    | .error _ => (.abortLoadEvent, store)
    | .ok latest_event =>
      if latest_event.bundle_snapshot.main_tx.status = TransactionStatus.Confirmed then
        (.skipAlreadyConfirmed, store)
      else
        match parseH256 tx_hash with
        | none => (.abortBadHash, store)
        | some _ =>
          match receipt with
          | .error _ => (.abortReceipt, store)
          | .ok none => (.stillPending, store)
          | .ok (some receipt) =>
            if latest_event.leg ≠ some TransactionLeg.Main then
              (.skipWrongLeg, store)
            else
              let tx := latest_event.bundle_snapshot.main_tx
              let updated_tx :=
                (tx.with_status TransactionStatus.Confirmed).with_block_number
                  receipt.block_number
              match TransactionEvent.on_confirmed latest_event updated_tx store.now with
              | .error _ => (.abortConfirm, store)
              | .ok confirmed_event =>
                match TransactionEventManager.persist store confirmed_event with
                | .error _ => (.abortPersist, store)
                | .ok (_, store') => (.confirmedEvent confirmed_event, store')

/-- Per-view outcome of one finalization-watcher iteration step
    (src/foxy-watcher/src/poll_finalizations.rs).  Every receipt-side
    branch, including a reverted receipt and a receipt fetch error, is a
    continue (skip); only on_confirmed/persist errors abort the poll. -/
inductive FinalizeStep
  | skipMissingHash
  | skipLoadEvent
  | skipWrongLeg
  | skipAlreadyConfirmed
  | skipBadHash
  | skipFailedReceipt
  | stillPending
  | skipReceiptError
  | abortConfirm
  | abortPersist
  | finalizedEvent (ev : TransactionEvent)
deriving DecidableEq

/-- One view of the finalization watcher loop body
    (poll_finalizations.rs lines 20-88), with the latest-event load and the
    receipt fetch supplied as resolved inputs.  A receipt whose execution
    status differs from 1 is logged and skipped (lines 57-59). -/
def finalize_item (view : TransactionStatusView)
    (latest : Except DynamoDbError TransactionEvent)
    (receipt : Except Unit (Option Receipt)) (store : EventStore) :
    FinalizeStep × EventStore :=
  match view.tx_hash with
  | none => (.skipMissingHash, store)
  | some tx_hash =>
    match latest with
    | .error _ => (.skipLoadEvent, store)
    | .ok latest_event =>
      if latest_event.leg ≠ some TransactionLeg.Fee then
        (.skipWrongLeg, store)
      else if latest_event.bundle_snapshot.fee_tx.status = TransactionStatus.Confirmed then
        (.skipAlreadyConfirmed, store)
      else
        match parseH256 tx_hash with
        | none => (.skipBadHash, store)
        | some _ =>
          match receipt with
          | .ok (some receipt) =>
            let block := receipt.block_number
            let status := receipt.status
            if status ≠ some 1 then
              (.skipFailedReceipt, store)
            else if latest_event.leg ≠ some TransactionLeg.Fee then
              (.skipWrongLeg, store)
            else
              let tx := latest_event.bundle_snapshot.fee_tx
              let updated_tx :=
                ((tx.with_status TransactionStatus.Confirmed).with_block_number
                  block).with_receipt_status status
              match TransactionEvent.on_confirmed latest_event updated_tx store.now with
              | .error _ => (.abortConfirm, store)
              | .ok confirmed_event =>
                match TransactionEventManager.persist store confirmed_event with
                | .error _ => (.abortPersist, store)
                | .ok (_, store') => (.finalizedEvent confirmed_event, store')
          | .ok none => (.stillPending, store)
          | .error _ => (.skipReceiptError, store)

/-- models/transactions.rs: Display for TokenType. -/
def TokenType.toStr : TokenType → String
  | TokenType.ETH => "ETH"
  | TokenType.USDC => "USDC"

/-- src/foxy-shared/src/models/transactions.rs: TransactionHistoryItem.
    The f64 amount field (main value divided by ten to the eighteenth) is
    omitted; no embedded claim depends on its value. -/
structure TransactionHistoryItem where
  bundle_id : String
  direction : Direction
  status : TransactionStatus
  token : String
  counterparty : PartyDetails
  message : Option String
  tx_hash : Option String
  timestamp : String
deriving DecidableEq

/-- models/transactions.rs lines 990-998: the bundle-status to
    transaction-status display mapping of from_event_and_user. -/
def historyStatus : Option BundleStatus → TransactionStatus
  | some BundleStatus.Initiated => TransactionStatus.Created
  | some BundleStatus.Signed => TransactionStatus.Signed
  | some BundleStatus.MainConfirmed => TransactionStatus.Confirmed
  | some BundleStatus.Completed => TransactionStatus.Confirmed
  | some BundleStatus.Failed => TransactionStatus.Failed
  | some BundleStatus.Cancelled => TransactionStatus.Cancelled
  | some BundleStatus.Errored => TransactionStatus.Error
  | none => TransactionStatus.Created

/-- src/foxy-shared/src/models/transactions.rs:
    TransactionHistoryItem::from_event_and_user. -/
def TransactionHistoryItem.from_event_and_user (event : TransactionEvent)
    (current_user_id : String) : Option TransactionHistoryItem :=
  let bundle := event.bundle_snapshot
  match bundle.metadata with
  | none => none
  | some metadata =>
    match metadata.sender with
    | none => none
    | some sender =>
      match metadata.recipient with
      | none => none
      | some recipient =>
        let pair : Option (Direction × PartyDetails) :=
          if sender.user_id = current_user_id then
            some (Direction.Outgoing, recipient)
          else if recipient.user_id = current_user_id then
            some (Direction.Incoming, sender)
          else
            none
        match pair with
        | none => none
        | some (direction, counterparty) =>
          some
            { bundle_id := bundle.bundle_id
              direction := direction
              status := historyStatus event.bundle_status
              token := bundle.main_tx.token_type.toStr
              counterparty := counterparty
              message := metadata.message
              tx_hash := bundle.main_tx.transaction_hash
              timestamp := timeStr event.created_at }

/-- One row of the History View table, with its partition and sort key. -/
structure HistoryRow where
  pk : String
  sk : String
  item : TransactionHistoryItem
deriving DecidableEq

namespace TransactionHistoryViewManager

/-- src/foxy-shared/src/views/history_view.rs:
    TransactionHistoryViewManager::project_from_event, as the list of rows
    it writes.  Note the source computes each row partition key from the
    counterparty user id of the projected view
    (pk = User# followed by view.counterparty.user_id, lines 72 and 80). -/
def project_from_event (event : TransactionEvent) :
    Except String (List HistoryRow) :=
  match event.bundle_snapshot.metadata with
  | none => .error "Missing bundle metadata"
  | some metadata =>
    match metadata.sender with
    | none => .error "Missing sender in metadata"
    | some sender =>
      match metadata.recipient with
      | none => .error "Missing recipient in metadata"
      | some recipient =>
        let sender_item := TransactionHistoryItem.from_event_and_user event sender.user_id
        let recipient_item := TransactionHistoryItem.from_event_and_user event recipient.user_id
        let rows1 : List HistoryRow :=
          match sender_item with
          | some sender_view =>
              [{ pk := "User#" ++ sender_view.counterparty.user_id
                 sk := "Bundle#" ++ sender_view.bundle_id ++ "|" ++ sender_view.timestamp
                 item := sender_view }]
          | none => []
        let rows2 : List HistoryRow :=
          match recipient_item with
          | some recipient_view =>
              [{ pk := "User#" ++ recipient_view.counterparty.user_id
                 sk := "Bundle#" ++ recipient_view.bundle_id ++ "|" ++ recipient_view.timestamp
                 item := recipient_view }]
          | none => []
        .ok (rows1 ++ rows2)

/-- DynamoDB begins_with on strings, at the char level. -/
def listBeginsWith : List Char → List Char → Bool
  | _, [] => true
  | [], _ :: _ => false
  | c :: cs, p :: ps => c = p && listBeginsWith cs ps

/-- src/foxy-shared/src/views/history_view.rs:
    TransactionHistoryViewManager::get_by_bundle_id_for_user over the rows
    of the table: PK equals User# plus the user id and SK begins with
    Bundle# plus the bundle id, limit 1. -/
def get_by_bundle_id_for_user (rows : List HistoryRow)
    (user_id bundle_id : String) : Option TransactionHistoryItem :=
  ((rows.filter (fun r =>
      r.pk = "User#" ++ user_id &&
        listBeginsWith r.sk.data ("Bundle#" ++ bundle_id).data)).head?).map
    (fun r => r.item)

/-- src/foxy-shared/src/views/history_view.rs:
    TransactionHistoryViewManager::query_by_user over the rows of the
    table (pagination elided): every row whose PK equals User# plus the
    user id. -/
def query_by_user (rows : List HistoryRow) (user_id : String) :
    List TransactionHistoryItem :=
  (rows.filter (fun r => r.pk = "User#" ++ user_id)).map (fun r => r.item)

end TransactionHistoryViewManager

/-- aws_sdk_dynamodb AttributeValue, restricted to the variants the embedded
    view code constructs and inspects. -/
inductive AttributeValue
  | S (s : String)
  | N (n : String)
deriving DecidableEq

/-- AttributeValue::as_s (Ok only for the S variant). -/
def AttributeValue.as_s : AttributeValue → Option String
  | AttributeValue.S s => some s
  | _ => none

/-- UTF-8 encoding of one unicode scalar value (the byte layout serde_json
    output and base64 input are made of). -/
def utf8EncodeChar (c : Char) : List Nat :=
  let n := c.toNat
  if n < 0x80 then [n]
  else if n < 0x800 then [0xC0 + n / 0x40, 0x80 + n % 0x40]
  else if n < 0x10000 then
    [0xE0 + n / 0x1000, 0x80 + (n / 0x40) % 0x40, 0x80 + n % 0x40]
  else
    [0xF0 + n / 0x40000, 0x80 + (n / 0x1000) % 0x40, 0x80 + (n / 0x40) % 0x40, 0x80 + n % 0x40]

/-- UTF-8 encoding of a char sequence. -/
def utf8Encode : List Char → List Nat
  | [] => []
  | c :: cs => utf8EncodeChar c ++ utf8Encode cs

/-- One UTF-8 decoding step: reads a single scalar value from the front of
    the byte sequence, rejecting stray continuation bytes, overlong forms,
    surrogate scalar values and out-of-range sequences. -/
def utf8Step : List Nat → Option (Char × List Nat) := fun l =>
  match l with
  | [] => none
  | b :: bs =>
    if b < 0x80 then some (Char.ofNat b, bs)
    else if b < 0xC2 then none
    else if b < 0xE0 then
      match bs with
      | b1 :: bs1 =>
        if 0x80 ≤ b1 ∧ b1 < 0xC0 then
          some (Char.ofNat ((b - 0xC0) * 0x40 + (b1 - 0x80)), bs1)
        else none
      | [] => none
    else if b < 0xF0 then
      match bs with
      | b1 :: b2 :: bs2 =>
        if (0x80 ≤ b1 ∧ b1 < 0xC0) ∧ (0x80 ≤ b2 ∧ b2 < 0xC0) then
          let n := (b - 0xE0) * 0x1000 + (b1 - 0x80) * 0x40 + (b2 - 0x80)
          if 0x800 ≤ n ∧ (n < 0xD800 ∨ 0xE000 ≤ n) then
            some (Char.ofNat n, bs2)
          else none
        else none
      | _ => none
    else if b < 0xF5 then
      match bs with
      | b1 :: b2 :: b3 :: bs3 =>
        if (0x80 ≤ b1 ∧ b1 < 0xC0) ∧ (0x80 ≤ b2 ∧ b2 < 0xC0) ∧ (0x80 ≤ b3 ∧ b3 < 0xC0) then
          let n := (b - 0xF0) * 0x40000 + (b1 - 0x80) * 0x1000 +
            (b2 - 0x80) * 0x40 + (b3 - 0x80)
          if 0x10000 ≤ n ∧ n < 0x110000 then
            some (Char.ofNat n, bs3)
          else none
        else none
      | _ => none
    else none

/-- UTF-8 decoding loop; the fuel bounds the number of decoded scalars and
    every step consumes at least one byte, so the byte count is always
    sufficient fuel. -/
def utf8DecodeLoop : Nat → List Nat → Option (List Char)
  | _, [] => some []
  | 0, _ :: _ => none
  | fuel + 1, b :: bs =>
      match utf8Step (b :: bs) with
      | none => none
      | some (c, rest) => (utf8DecodeLoop fuel rest).map (fun cs => c :: cs)

/-- UTF-8 decoding of a byte sequence. -/
def utf8Decode (l : List Nat) : Option (List Char) :=
  utf8DecodeLoop l.length l

/-- The standard base64 alphabet (base64::engine::general_purpose::STANDARD). -/
def b64Alphabet : List Char :=
  "ABCDEFGHIJKLMNOPQRSTUVWXYZabcdefghijklmnopqrstuvwxyz0123456789+/".data

/-- The base64 character of a sextet. -/
def b64Char (n : Nat) : Char :=
  b64Alphabet.getD n '/'

/-- The sextet of a base64 character (none for non-alphabet characters,
    including the padding character). -/
def b64Val (c : Char) : Option Nat :=
  let i := b64Alphabet.indexOf c
  if i < 64 then some i else none

/-- Standard padded base64 encoding of a byte sequence. -/
def b64Encode : List Nat → List Char
  | [] => []
  | [a] => [b64Char (a / 4), b64Char (a % 4 * 16), '=', '=']
  | [a, b] => [b64Char (a / 4), b64Char (a % 4 * 16 + b / 16), b64Char (b % 16 * 4), '=']
  | a :: b :: c :: rest =>
      b64Char (a / 4) :: b64Char (a % 4 * 16 + b / 16) ::
        b64Char (b % 16 * 4 + c / 64) :: b64Char (c % 64) :: b64Encode rest

/-- Standard padded base64 decoding, rejecting non-canonical padding. -/
def b64Decode : List Char → Option (List Nat)
  | [] => some []
  | c0 :: c1 :: c2 :: c3 :: rest =>
      match b64Val c0, b64Val c1 with
      | some s0, some s1 =>
        if c2 = '=' then
          if c3 = '=' ∧ rest = [] ∧ s1 % 16 = 0 then
            some [s0 * 4 + s1 / 16]
          else none
        else
          match b64Val c2 with
          | some s2 =>
            if c3 = '=' then
              if rest = [] ∧ s2 % 4 = 0 then
                some [s0 * 4 + s1 / 16, s1 % 16 * 16 + s2 / 4]
              else none
            else
              match b64Val c3 with
              | some s3 =>
                  (b64Decode rest).map
                    (fun t => (s0 * 4 + s1 / 16) :: (s1 % 16 * 16 + s2 / 4) ::
                      (s2 % 4 * 64 + s3) :: t)
              | none => none
          | none => none
      | _, _ => none
  | _ => none

/-- Lowercase hex digit characters (as serde_json renders control escapes). -/
def hexCharOf (n : Nat) : Char :=
  "0123456789abcdef".data.getD n '0'

/-- The serde_json escaping of one string character: quote and backslash are
    escaped, control characters below space use the short escapes b, t, n,
    f, r or a u00XX escape, and every other character is copied verbatim. -/
def jsonEscapeChar (c : Char) : List Char :=
  if c = '\"' then ['\\', '\"']
  else if c = '\\' then ['\\', '\\']
  else if c.toNat = 8 then ['\\', 'b']
  else if c.toNat = 9 then ['\\', 't']
  else if c.toNat = 10 then ['\\', 'n']
  else if c.toNat = 12 then ['\\', 'f']
  else if c.toNat = 13 then ['\\', 'r']
  else if c.toNat < 32 then
    '\\' :: 'u' :: '0' :: '0' :: [hexCharOf (c.toNat / 16), hexCharOf (c.toNat % 16)]
  else [c]

/-- The body and closing quote of a serialized JSON string. -/
def jsonSerStrAux : List Char → List Char
  | [] => ['\"']
  | c :: cs => jsonEscapeChar c ++ jsonSerStrAux cs

/-- A serialized JSON string (serde_json rendering of a String value). -/
def jsonSerStr (s : List Char) : List Char :=
  '\"' :: jsonSerStrAux s

/-- The remaining entries of a serialized JSON object after the first. -/
def jsonSerObjMore : List (List Char × List Char) → List Char
  | [] => ['\x7d']
  | (k, v) :: rest => ',' :: (jsonSerStr k ++ ':' :: (jsonSerStr v ++ jsonSerObjMore rest))

/-- serde_json::to_vec of a map of strings, at the char level: the object
    entries in iteration order, with no interstitial whitespace. -/
def jsonSerObj : List (List Char × List Char) → List Char
  | [] => ['\x7b', '\x7d']
  | (k, v) :: rest => '\x7b' :: (jsonSerStr k ++ ':' :: (jsonSerStr v ++ jsonSerObjMore rest))

/-- One step of JSON string parsing, positioned inside the quotes: returns
    (none, rest) at the closing quote, (some c, rest) for one content
    character (handling the quote, backslash, slash, b, f, n, r, t and uXXXX
    escapes), and fails on raw control characters, bad escapes and
    surrogate escapes. -/
def jsonStrStep : List Char → Option (Option Char × List Char) := fun l =>
  match l with
  | [] => none
  | c :: cs =>
    if c = '\"' then some (none, cs)
    else if c = '\\' then
      match cs with
      | [] => none
      | e :: cs1 =>
        if e = '\"' then some (some '\"', cs1)
        else if e = '\\' then some (some '\\', cs1)
        else if e = '/' then some (some '/', cs1)
        else if e = 'b' then some (some (Char.ofNat 8), cs1)
        else if e = 't' then some (some (Char.ofNat 9), cs1)
        else if e = 'n' then some (some (Char.ofNat 10), cs1)
        else if e = 'f' then some (some (Char.ofNat 12), cs1)
        else if e = 'r' then some (some (Char.ofNat 13), cs1)
        else if e = 'u' then
          match cs1 with
          | h1 :: h2 :: h3 :: h4 :: cs2 =>
            match hexDigit h1, hexDigit h2, hexDigit h3, hexDigit h4 with
            | some d1, some d2, some d3, some d4 =>
                let n := d1 * 4096 + d2 * 256 + d3 * 16 + d4
                if n < 0xD800 then some (some (Char.ofNat n), cs2)
                else none
            | _, _, _, _ => none
          | _ => none
        else none
    else if c.toNat < 32 then none
    else some (some c, cs)

/-- JSON string parsing loop; the fuel bounds the number of content
    characters and every step consumes at least one input character. -/
def jsonParseStrLoop : Nat → List Char → Option (List Char × List Char)
  | 0, _ => none
  | fuel + 1, l =>
    match jsonStrStep l with
    | none => none
    | some (none, rest) => some ([], rest)
    | some (some c, rest) =>
        (jsonParseStrLoop fuel rest).map (fun p => (c :: p.1, p.2))

/-- Parses the body of a JSON string after its opening quote, returning the
    content and the input remaining after the closing quote. -/
def jsonParseStrAux (l : List Char) : Option (List Char × List Char) :=
  jsonParseStrLoop l.length l

/-- Parses the entries of a JSON object of strings, positioned after the
    opening brace or a separating comma; fuel bounds the entry count. -/
def jsonParseEntries : Nat → List Char → Option (List (List Char × List Char))
  | 0, _ => none
  | fuel + 1, l =>
    match l with
    | '\"' :: rest =>
      match jsonParseStrAux rest with
      | none => none
      | some (k, rest1) =>
        match rest1 with
        | ':' :: '\"' :: rest2 =>
          match jsonParseStrAux rest2 with
          | none => none
          | some (v, rest3) =>
            match rest3 with
            | ',' :: rest4 =>
                match jsonParseEntries fuel rest4 with
                | some es => some ((k, v) :: es)
                | none => none
            | '\x7d' :: rest4 => if rest4 = [] then some [(k, v)] else none
            | _ => none
        | _ => none
    | _ => none

/-- serde_json::from_slice into a map of strings, at the char level: a JSON
    object whose keys and values are strings, with no interstitial
    whitespace (as produced by serde_json serialization). -/
def jsonParseObj (l : List Char) : Option (List (List Char × List Char)) :=
  match l with
  | '\x7b' :: rest =>
    match rest with
    | ['\x7d'] => some []
    | _ => jsonParseEntries l.length rest
  | _ => none

/-- The shared body of encode_page_token (status_view.rs lines 138-145 and
    history_view.rs lines 93-100): keep the string-valued attributes, render
    the resulting string map with serde_json, and base64-encode the bytes. -/
def pageTokenEncode (key : List (String × AttributeValue)) : String :=
  let string_map : List (String × String) :=
    key.filterMap (fun kv => (kv.2.as_s).map (fun s => (kv.1, s)))
  (b64Encode (utf8Encode
    (jsonSerObj (string_map.map (fun kv => (kv.1.data, kv.2.data)))))).asString

/-- The shared body of decode_page_token (status_view.rs lines 128-136 and
    history_view.rs lines 102-110): base64-decode, parse with serde_json
    into a string map, and wrap each value back into AttributeValue::S. -/
def pageTokenDecode (token : String) : Option (List (String × AttributeValue)) :=
  (b64Decode token.data).bind (fun decoded_bytes =>
    (utf8Decode decoded_bytes).bind (fun chars =>
      (jsonParseObj chars).map
        (fun entries =>
          entries.map (fun kv => (String.mk kv.1, AttributeValue.S (String.mk kv.2))))))

namespace TransactionStatusViewManager

/-- src/foxy-shared/src/views/status_view.rs:
    TransactionStatusViewManager::encode_page_token. -/
def encode_page_token (key : List (String × AttributeValue)) : String :=
  pageTokenEncode key

/-- src/foxy-shared/src/views/status_view.rs:
    TransactionStatusViewManager::decode_page_token. -/
def decode_page_token (token : String) : Option (List (String × AttributeValue)) :=
  pageTokenDecode token

end TransactionStatusViewManager

namespace TransactionHistoryViewManager

/-- src/foxy-shared/src/views/history_view.rs:
    TransactionHistoryViewManager::encode_page_token (textually identical to
    the status view implementation). -/
def encode_page_token (key : List (String × AttributeValue)) : String :=
  pageTokenEncode key

/-- src/foxy-shared/src/views/history_view.rs:
    TransactionHistoryViewManager::decode_page_token (textually identical to
    the status view implementation). -/
def decode_page_token (token : String) : Option (List (String × AttributeValue)) :=
  pageTokenDecode token

end TransactionHistoryViewManager

/-! Concrete fixtures used by closed evaluations (witnesses and
    counterexamples). -/

/-- A freshly created leg, as Transaction::new would build it. -/
def sampleTx : Transaction :=
  { transaction_id := "tx-1"
    user_id := "user-1"
    sender_address := "0xsender"
    recipient_address := "0xrecipient"
    transaction_value := 1000
    token_type := TokenType.ETH
    status := TransactionStatus.Created
    network_fee := 0
    service_fee := 0
    total_fees := 0
    fiat_value := 100
    fiat_currency := "GBP"
    chain_id := 10
    signed_tx := none
    transaction_hash := none
    event_log := none
    priority_level := PriorityLevel.Standard
    network := Network.OptimismSepolia
    gas_price := none
    gas_used := none
    gas_limit := none
    nonce := some 0
    max_fee_per_gas := none
    max_priority_fee_per_gas := none
    total_fee_paid := none
    block_number := none
    receipt_status := none
    contract_address := none
    approval_tx_hash := none
    recipient_tx_hash := none
    fee_tx_hash := none
    created_at := 0 }

/-- A signed leg carrying a decodable signed payload. -/
def signedTx : Transaction :=
  { sampleTx with signed_tx := some "0xab", status := TransactionStatus.Signed }

/-- A freshly initiated bundle. -/
def sampleBundle : TransactionBundle :=
  { bundle_id := "bundle-1"
    user_id := "user-1"
    status := BundleStatus.Initiated
    fee_tx := sampleTx
    main_tx := sampleTx
    metadata := none
    created_at := 0
    updated_at := 0 }

/-- A bundle with both legs signed. -/
def signedBundle : TransactionBundle :=
  { sampleBundle with
      status := BundleStatus.Signed
      fee_tx := signedTx
      main_tx := signedTx }

/-- An empty event store. -/
def store0 : EventStore :=
  { items := [], next_id := 0, now := 0 }

/-- The first event of a bundle: (Initiate, Initiated). -/
def initiateEvent : TransactionEvent :=
  { event_id := ""
    bundle_id := "bundle-1"
    user_id := "user-1"
    event_type := EventType.Initiate
    leg := none
    created_at := 0
    bundle_status := some BundleStatus.Initiated
    transaction_status := none
    bundle_snapshot := sampleBundle }

/-- A (Sign, Signed) last event, the main-leg broadcastable state. -/
def signedEvent : TransactionEvent :=
  { initiateEvent with
      event_type := EventType.Sign
      bundle_status := some BundleStatus.Signed
      bundle_snapshot := signedBundle }

/-- A (Confirm, MainConfirmed) last event, the fee-leg broadcastable state. -/
def confirmMainEvent : TransactionEvent :=
  { initiateEvent with
      event_type := EventType.Confirm
      leg := some TransactionLeg.Main
      bundle_status := some BundleStatus.MainConfirmed
      bundle_snapshot :=
        { signedBundle with
            status := BundleStatus.MainConfirmed
            main_tx := { signedTx with status := TransactionStatus.Confirmed } } }

/-- A last event in the terminal Completed state. -/
def completedEvent : TransactionEvent :=
  { initiateEvent with
      event_type := EventType.Confirm
      leg := some TransactionLeg.Fee
      bundle_status := some BundleStatus.Completed
      bundle_snapshot := { signedBundle with status := BundleStatus.Completed } }

/-- An already-persisted event (non-empty event id). -/
def persistedEvent : TransactionEvent :=
  { initiateEvent with event_id := "evt-7" }

/-- A concrete stand-in for the keccak256 parameter in closed evaluations. -/
def khash : List Nat → Nat :=
  fun bytes => bytes.foldl (fun acc b => acc * 256 + b) 0

/-- A 0x-prefixed 64-hex-digit transaction hash string. -/
def sampleHashStr : String :=
  String.mk ('0' :: 'x' :: List.replicate 64 'a')

/-- A last event with the fee leg pending after its broadcast
    (Broadcast, MainConfirmed, leg Fee). -/
def feePendingEvent : TransactionEvent :=
  { initiateEvent with
      event_type := EventType.Broadcast
      leg := some TransactionLeg.Fee
      bundle_status := some BundleStatus.MainConfirmed
      bundle_snapshot :=
        { signedBundle with
            status := BundleStatus.MainConfirmed
            main_tx := { signedTx with status := TransactionStatus.Confirmed }
            fee_tx := { signedTx with status := TransactionStatus.Pending } } }

/-- A last event with the main leg pending after its broadcast
    (Broadcast, Signed, leg Main). -/
def mainPendingEvent : TransactionEvent :=
  { initiateEvent with
      event_type := EventType.Broadcast
      leg := some TransactionLeg.Main
      bundle_status := some BundleStatus.Signed
      bundle_snapshot :=
        { signedBundle with
            main_tx := { signedTx with status := TransactionStatus.Pending } } }

/-- A status view row for the pending main leg. -/
def mainPendingView : TransactionStatusView :=
  { pk := "Transaction#tx-1"
    bundle_id := some "bundle-1"
    tx_hash := some sampleHashStr
    user_id := some "user-1"
    status := some TransactionStatus.Pending
    block_number := none
    updated_at := none }

/-- A successful receipt at block 42. -/
def okReceipt : Receipt :=
  { block_number := some 42, status := some 1 }

/-- A reverted receipt (execution status 0). -/
def revertedReceipt : Receipt :=
  { block_number := some 42, status := some 0 }

/-- Sender party details for the history projection fixtures. -/
def alice : PartyDetails :=
  { user_id := "alice", name := "Alice", wallet := "0xalice" }

/-- Recipient party details for the history projection fixtures. -/
def bob : PartyDetails :=
  { user_id := "bob", name := "Bob", wallet := "0xbob" }

/-- Bundle metadata carrying both party details. -/
def sampleMetadata : BundleMetadata :=
  { display_currency := "GBP"
    expected_currency_amount := 100
    message := some "hello"
    sender := some alice
    recipient := some bob
    app_version := none
    location := none
    service_fee := 0
    network_fee := 0
    gas_pricing :=
      { estimated_gas := "21000", gas_price := "1", max_fee_per_gas := "1",
        max_priority_fee_per_gas := "0" } }

/-- A completed bundle with projectable metadata. -/
def historyBundle : TransactionBundle :=
  { sampleBundle with
      status := BundleStatus.Completed
      metadata := some sampleMetadata }

/-- A projectable Confirm event over the completed bundle. -/
def historyEvent : TransactionEvent :=
  { initiateEvent with
      event_type := EventType.Confirm
      leg := some TransactionLeg.Fee
      bundle_status := some BundleStatus.Completed
      bundle_snapshot := historyBundle }

/-- A previous-generation factory event fixture (Creation state). -/
def factoryEvent : FactoryTransactionEvent :=
  { event_id := ""
    transaction_id := "tx-1"
    user_id := "user-1"
    event_type := LegacyEventType.Creation
    status := TransactionStatus.Created
    created_at := 0
    sender_address := "0xsender"
    recipient_address := "0xrecipient"
    transaction := sampleTx }

/-- A concrete two-entry key map of string attributes. -/
def sampleKey : List (String × AttributeValue) :=
  [("PK", AttributeValue.S "Transaction#abc123"),
   ("SK", AttributeValue.S "Event#2025-01-01T00:00:00Z")]

theorem genId_ne_empty : ∀ n : Nat, genId n ≠ "" := by
  intro n h
  have hd : (genId n).data = ("" : String).data := by rw [h]
  simp [genId, String.data_append] at hd

/-- C3: persist assigns a fresh store-generated id and writes the event when
    the event id is empty; a non-empty (already persisted) event id always
    yields AlreadyPersisted with no write, so a second persist of a durable
    event never double-writes. -/
theorem c3_persist_double_write_guard :
    ∀ (store : EventStore) (event : TransactionEvent),
    (event.event_id = "" →
      ∃ item, TransactionEventManager.persist store event =
          .ok (genId store.next_id,
            { items := store.items ++ [item], next_id := store.next_id + 1,
              now := store.now }) ∧
        item.event_id = genId store.next_id ∧
        item.bundle_snapshot = event.bundle_snapshot ∧
        item.event_type = event.event_type ∧
        genId store.next_id ≠ "")
    ∧ (event.event_id ≠ "" →
      TransactionEventManager.persist store event =
        .error (.AlreadyPersisted
          ("Attempted to persist an event that already has event_id: " ++ event.event_id)))
    ∧ (∀ (assigned : String) (store2 : EventStore),
        TransactionEventManager.persist store event = .ok (assigned, store2) →
        ∀ store3 : EventStore,
          TransactionEventManager.persist store3 { event with event_id := assigned } =
            .error (.AlreadyPersisted
              ("Attempted to persist an event that already has event_id: " ++ assigned))) := by
  intro store event
  refine ⟨?_, ?_, ?_⟩
  · intro hempty
    unfold TransactionEventManager.persist
    rw [if_neg (not_not_intro hempty)]
    exact ⟨_, rfl, rfl, rfl, rfl, genId_ne_empty store.next_id⟩
  · intro hne
    unfold TransactionEventManager.persist
    rw [if_pos hne]
  · intro assigned store2 hok store3
    by_cases hempty : event.event_id = ""
    · unfold TransactionEventManager.persist at hok
      rw [if_neg (not_not_intro hempty)] at hok
      simp only [Except.ok.injEq, Prod.mk.injEq] at hok
      obtain ⟨h1, -⟩ := hok
      subst h1
      unfold TransactionEventManager.persist
      rw [if_pos (genId_ne_empty store.next_id)]
    · unfold TransactionEventManager.persist at hok
      rw [if_pos hempty] at hok
      exact absurd hok (by simp)

/-- C1 counterexample: the claim states that a Fail transition requested
    when the last event carries a terminal bundle status (here Completed)
    returns InvalidTransition and persists nothing; but on_fail succeeds and
    persists a new Fail event from the terminal state. -/
theorem c1_fail_from_terminal_counterexample :
    completedEvent.bundle_status = some BundleStatus.Completed
    ∧ (TransactionEvent.on_fail store0 completedEvent TransactionLeg.Main).1.isOk = true
    ∧ (TransactionEvent.on_fail store0 completedEvent TransactionLeg.Main).2.items.length = 1 := by
  refine ⟨rfl, rfl, rfl⟩

/-- C1 (amended): on_signed and on_broadcast reject any (event type, bundle
    status) pair outside the section 4.2 table with InvalidTransition and
    leave the store untouched; but on_fail and on_error perform no
    precondition check at all: from every last event, including one whose
    bundle status is terminal, they construct and persist a Fail or Error
    event. -/
theorem c1_transition_guards_amended :
    ∀ (store : EventStore) (ev : TransactionEvent) (fee_signed main_signed : String)
      (tx_hash : Nat) (leg : TransactionLeg),
    (¬(ev.event_type = EventType.Initiate ∧ ev.bundle_status = some BundleStatus.Initiated) →
      ∃ msg, TransactionEvent.on_signed store ev fee_signed main_signed =
        (.error (.InvalidTransition msg), store))
    ∧ (ev.bundle_status = some ev.bundle_snapshot.status →
       ¬((ev.event_type = EventType.Sign ∧ ev.bundle_snapshot.status = BundleStatus.Signed) ∨
         (ev.event_type = EventType.Confirm ∧
           ev.bundle_snapshot.status = BundleStatus.MainConfirmed)) →
      ∃ msg, TransactionEvent.on_broadcast store ev tx_hash =
        (.error (.InvalidTransition msg), store))
    ∧ (∃ ev' item,
        TransactionEvent.on_fail store ev leg =
          (.ok ev',
            { items := store.items ++ [item], next_id := store.next_id + 1, now := store.now }) ∧
        ev'.bundle_status = some BundleStatus.Failed ∧
        item.event_type = EventType.Fail ∧ item.bundle_status = some BundleStatus.Failed)
    ∧ (∃ ev' item,
        TransactionEvent.on_error store ev leg =
          (.ok ev',
            { items := store.items ++ [item], next_id := store.next_id + 1, now := store.now }) ∧
        ev'.bundle_status = some BundleStatus.Errored ∧
        item.event_type = EventType.Error ∧ item.bundle_status = some BundleStatus.Errored) := by
  intro store ev fee_signed main_signed tx_hash leg
  refine ⟨?_, ?_, ?_, ?_⟩
  · intro hniet
    unfold TransactionEvent.on_signed
    by_cases h1 : ev.event_type = EventType.Initiate
    · have h2 : ev.bundle_status ≠ some BundleStatus.Initiated := fun hb => hniet ⟨h1, hb⟩
      rw [if_neg (not_not_intro h1), if_pos h2]
      exact ⟨_, rfl⟩
    · rw [if_pos h1]
      exact ⟨_, rfl⟩
  · intro hws hniet
    unfold TransactionEvent.on_broadcast
    rw [hws]
    cases htype : ev.event_type <;> cases hst : ev.bundle_snapshot.status <;>
      simp_all [TransactionEvent.broadcastFinish]
  · unfold TransactionEvent.on_fail TransactionEventManager.persist
    cases leg <;> exact ⟨_, _, rfl, rfl, rfl, rfl⟩
  · unfold TransactionEvent.on_error TransactionEventManager.persist
    cases leg <;> exact ⟨_, _, rfl, rfl, rfl, rfl⟩

/-- C1 witness: instantiates the amended theorem at the terminal Completed
    last event. -/
theorem c1_transition_guards_amended_witness :
    (∃ msg, TransactionEvent.on_signed store0 completedEvent "0xfee" "0xmain" =
      (.error (.InvalidTransition msg), store0))
    ∧ (∃ msg, TransactionEvent.on_broadcast store0 completedEvent 7 =
      (.error (.InvalidTransition msg), store0))
    ∧ (∃ ev' item,
        TransactionEvent.on_fail store0 completedEvent TransactionLeg.Main =
          (.ok ev',
            { items := store0.items ++ [item], next_id := store0.next_id + 1, now := store0.now }) ∧
        ev'.bundle_status = some BundleStatus.Failed ∧
        item.event_type = EventType.Fail ∧ item.bundle_status = some BundleStatus.Failed) :=
  ⟨(c1_transition_guards_amended store0 completedEvent "0xfee" "0xmain" 7 TransactionLeg.Main).1
      (by decide),
   (c1_transition_guards_amended store0 completedEvent "0xfee" "0xmain" 7 TransactionLeg.Main).2.1
      (by decide) (by decide),
   (c1_transition_guards_amended store0 completedEvent "0xfee" "0xmain" 7 TransactionLeg.Main).2.2.1⟩

theorem persist_empty_eq (store : EventStore) (event : TransactionEvent)
    (h : event.event_id = "") :
    TransactionEventManager.persist store event =
      .ok (genId store.next_id,
        { items := store.items ++
            [{ pk := "Bundle#" ++ event.bundle_id
               sk := "Event#" ++ timeStr store.now
               event_id := genId store.next_id
               user_id := event.user_id
               event_type := event.event_type
               created_at := timeStr store.now
               bundle_snapshot := event.bundle_snapshot
               leg := event.leg
               transaction_status := event.transaction_status
               bundle_status := event.bundle_status }]
          next_id := store.next_id + 1
          now := store.now }) := by
  unfold TransactionEventManager.persist
  rw [if_neg (not_not_intro h)]

/-- C2: on_broadcast produces a fee-leg Broadcast event exactly from a
    (Confirm, MainConfirmed) last event, a main-leg Broadcast event from
    (Sign, Signed), and an InvalidTransition for every other pair, so a fee
    broadcast is never producible before the main leg is confirmed. -/
theorem c2_fee_broadcast_ordering :
    ∀ (store : EventStore) (ev : TransactionEvent) (tx_hash : Nat),
    ev.bundle_status = some ev.bundle_snapshot.status →
    ((∃ out store', TransactionEvent.on_broadcast store ev tx_hash = (.ok out, store') ∧
        out.leg = some TransactionLeg.Fee)
      ↔ (ev.event_type = EventType.Confirm ∧
         ev.bundle_snapshot.status = BundleStatus.MainConfirmed))
    ∧ ((ev.event_type = EventType.Sign ∧ ev.bundle_snapshot.status = BundleStatus.Signed) →
      ∃ out store', TransactionEvent.on_broadcast store ev tx_hash = (.ok out, store') ∧
        out.leg = some TransactionLeg.Main)
    ∧ (¬((ev.event_type = EventType.Sign ∧ ev.bundle_snapshot.status = BundleStatus.Signed) ∨
         (ev.event_type = EventType.Confirm ∧
           ev.bundle_snapshot.status = BundleStatus.MainConfirmed)) →
      ∃ msg, TransactionEvent.on_broadcast store ev tx_hash =
        (.error (.InvalidTransition msg), store)) := by
  intro store ev tx_hash hws
  refine ⟨?_, ?_, ?_⟩ <;>
    cases htype : ev.event_type <;> cases hst : ev.bundle_snapshot.status <;>
      simp_all [TransactionEvent.on_broadcast, TransactionEvent.broadcastFinish,
        persist_empty_eq]

/-- C7: signing is legal only from (Initiate, Initiated); on_signed then
    marks both legs Signed carrying the supplied payloads and sets the
    bundle status to Signed; a transaction supplied without its signed
    payload produces no event and raises MissingSignatureData
    (TransactionEventFactory::created_signed_event). -/
theorem c7_signing_guards :
    ∀ (store : EventStore) (ev : TransactionEvent) (fee_signed main_signed : String)
      (lf : FactoryTransactionEvent) (new_tx : Transaction) (now : Nat),
    (¬(ev.event_type = EventType.Initiate ∧ ev.bundle_status = some BundleStatus.Initiated) →
      ∃ msg, TransactionEvent.on_signed store ev fee_signed main_signed =
        (.error (.InvalidTransition msg), store))
    ∧ (ev.event_type = EventType.Initiate → ev.bundle_status = some BundleStatus.Initiated →
      ∃ ev' store', TransactionEvent.on_signed store ev fee_signed main_signed =
          (.ok ev', store') ∧
        ev'.event_type = EventType.Sign ∧
        ev'.bundle_status = some BundleStatus.Signed ∧
        ev'.bundle_snapshot.status = BundleStatus.Signed ∧
        ev'.bundle_snapshot.fee_tx.signed_tx = some fee_signed ∧
        ev'.bundle_snapshot.fee_tx.status = TransactionStatus.Signed ∧
        ev'.bundle_snapshot.main_tx.signed_tx = some main_signed ∧
        ev'.bundle_snapshot.main_tx.status = TransactionStatus.Signed ∧
        store'.items.length = store.items.length + 1)
    ∧ (new_tx.signed_tx = none →
      TransactionEventFactory.created_signed_event lf new_tx now =
        .error (.MissingSignatureData "transaction_hash is required for signed state")) := by
  intro store ev fee_signed main_signed lf new_tx now
  refine ⟨?_, ?_, ?_⟩
  · intro hniet
    unfold TransactionEvent.on_signed
    by_cases h1 : ev.event_type = EventType.Initiate
    · have h2 : ev.bundle_status ≠ some BundleStatus.Initiated := fun hb => hniet ⟨h1, hb⟩
      rw [if_neg (not_not_intro h1), if_pos h2]
      exact ⟨_, rfl⟩
    · rw [if_pos h1]
      exact ⟨_, rfl⟩
  · intro h1 h2
    unfold TransactionEvent.on_signed
    rw [if_neg (not_not_intro h1), if_neg (not_not_intro h2)]
    simp only [persist_empty_eq]
    refine ⟨_, _, rfl, rfl, rfl, rfl, rfl, rfl, rfl, rfl, by simp⟩
  · intro hnone
    unfold TransactionEventFactory.created_signed_event
    rw [if_pos hnone]

/-- C4: a Confirm recorded for the main leg (main leg awaiting confirmation)
    advances the bundle to MainConfirmed; a Confirm recorded for the fee leg
    of a MainConfirmed bundle with a successful receipt advances the bundle
    to Completed. -/
theorem c4_confirm_advances_bundle :
    ∀ (view : TransactionStatusView) (latest_event : TransactionEvent) (receipt : Receipt)
      (store : EventStore) (th : String),
    view.tx_hash = some th →
    (parseH256 th).isSome = true →
    (latest_event.leg = some TransactionLeg.Main →
     latest_event.bundle_snapshot.main_tx.status ≠ TransactionStatus.Confirmed →
      ∃ ev store', confirm_item view (.ok latest_event) (.ok (some receipt)) store =
          (.confirmedEvent ev, store') ∧
        ev.event_type = EventType.Confirm ∧
        ev.bundle_status = some BundleStatus.MainConfirmed ∧
        ev.bundle_snapshot.status = BundleStatus.MainConfirmed ∧
        ev.bundle_snapshot.main_tx.status = TransactionStatus.Confirmed ∧
        ev.bundle_snapshot.main_tx.block_number = receipt.block_number ∧
        store'.items.length = store.items.length + 1)
    ∧ (latest_event.leg = some TransactionLeg.Fee →
       latest_event.bundle_snapshot.fee_tx.status ≠ TransactionStatus.Confirmed →
       receipt.status = some 1 →
      ∃ ev store', finalize_item view (.ok latest_event) (.ok (some receipt)) store =
          (.finalizedEvent ev, store') ∧
        ev.event_type = EventType.Confirm ∧
        ev.bundle_status = some BundleStatus.Completed ∧
        ev.bundle_snapshot.status = BundleStatus.Completed ∧
        ev.bundle_snapshot.fee_tx.status = TransactionStatus.Confirmed ∧
        store'.items.length = store.items.length + 1) := by
  intro view latest_event receipt store th hth hparse
  obtain ⟨n, hn⟩ := Option.isSome_iff_exists.mp hparse
  constructor
  · intro hleg hnc
    simp only [confirm_item, hth, hn, hleg, TransactionEvent.on_confirmed,
      persist_empty_eq, if_neg hnc]
    refine ⟨_, _, rfl, rfl, rfl, rfl, rfl, rfl, by simp⟩
  · intro hleg hnc hstatus
    simp only [finalize_item, hth, hn, hleg, hstatus, TransactionEvent.on_confirmed,
      persist_empty_eq, if_neg hnc]
    refine ⟨_, _, rfl, rfl, rfl, rfl, rfl, by simp⟩

/-- C6 (amended): a fee-leg receipt whose execution status is not success
    never yields a Confirm event; the finalization watcher logs and skips the
    item, leaving the store untouched — in particular it does not drive a
    Fail transition either. -/
theorem c6_reverted_fee_receipt_skipped :
    ∀ (view : TransactionStatusView) (latest_event : TransactionEvent) (receipt : Receipt)
      (store : EventStore) (th : String),
    view.tx_hash = some th →
    (parseH256 th).isSome = true →
    latest_event.leg = some TransactionLeg.Fee →
    latest_event.bundle_snapshot.fee_tx.status ≠ TransactionStatus.Confirmed →
    receipt.status ≠ some 1 →
    finalize_item view (.ok latest_event) (.ok (some receipt)) store =
      (FinalizeStep.skipFailedReceipt, store) := by
  intro view latest_event receipt store th hth hparse hleg hnc hstatus
  obtain ⟨n, hn⟩ := Option.isSome_iff_exists.mp hparse
  simp only [finalize_item, hth, hn, hleg, if_neg hnc, if_pos hstatus]
  simp [hnc]

/-- C6 counterexample: at a concrete reverted fee receipt the claim requires
    a Fail transition for the fee leg, but the watcher merely skips the item
    and persists nothing (the store is returned unchanged and empty). -/
theorem c6_reverted_fee_counterexample :
    finalize_item mainPendingView (.ok feePendingEvent) (.ok (some revertedReceipt)) store0 =
      (FinalizeStep.skipFailedReceipt, store0)
    ∧ store0.items = [] := by
  exact ⟨by decide, rfl⟩

/-- C5 (amended): when chain submission fails, a successful recovery lookup
    acknowledges the queue item and counts it a success but records no
    Broadcast event (unlike the success path, which records one); a lookup
    that finds nothing drives a Fail transition for the affected leg (bundle
    status Failed) and still acknowledges the queue item. -/
theorem c5_broadcast_failure_handling :
    ∀ (keccak : List Nat → Nat) (store : EventStore) (cache : List Nat)
      (ev : TransactionEvent) (leg : TransactionLeg) (sd : String) (bytes : List Nat)
      (lookup : LookupResult),
    legAndData ev = some (leg, some sd) →
    hexDecode sd = some bytes →
    keccak bytes ∉ cache →
    (lookup = LookupResult.found →
      (broadcast_item keccak store cache ev false lookup).ok = true ∧
      (broadcast_item keccak store cache ev false lookup).store = store ∧
      BAction.ackMessage ∈ (broadcast_item keccak store cache ev false lookup).actions ∧
      BAction.recordBroadcast ∉ (broadcast_item keccak store cache ev false lookup).actions)
    ∧ (lookup = LookupResult.notFound →
      (broadcast_item keccak store cache ev false lookup).ok = false ∧
      BAction.ackMessage ∈ (broadcast_item keccak store cache ev false lookup).actions ∧
      BAction.emitFatal ∈ (broadcast_item keccak store cache ev false lookup).actions ∧
      ∃ item, (broadcast_item keccak store cache ev false lookup).store.items =
          store.items ++ [item] ∧
        item.event_type = EventType.Fail ∧ item.bundle_status = some BundleStatus.Failed ∧
        item.leg = some leg ∧ item.bundle_snapshot.status = BundleStatus.Failed) := by
  intro keccak store cache ev leg sd bytes lookup hld hhex hnotin
  have hcontains : cache.contains (keccak bytes) = false := by simpa using hnotin
  constructor
  · rintro rfl
    simp only [broadcast_item, hld, hhex, hcontains, Bool.false_eq_true, if_false]
    refine ⟨by simp, by simp, by simp, by simp⟩
  · rintro rfl
    simp only [broadcast_item, hld, hhex, hcontains, Bool.false_eq_true, if_false,
      TransactionEvent.on_fail, persist_empty_eq]
    refine ⟨by simp, by simp, by simp, ?_⟩
    cases leg <;> exact ⟨_, rfl, rfl, rfl, rfl, rfl⟩

/-- C5 counterexample: the claim states a recovery lookup hit is handled
    exactly as a successful broadcast; but the success path records a
    Broadcast event (one new store item) while the recovery path records
    nothing (zero new store items), so the two are not handled identically. -/
theorem c5_recovery_counterexample :
    (broadcast_item khash store0 [] signedEvent false LookupResult.found).ok = true
    ∧ (broadcast_item khash store0 [] signedEvent false LookupResult.found).store.items.length = 0
    ∧ BAction.ackMessage ∈
        (broadcast_item khash store0 [] signedEvent false LookupResult.found).actions
    ∧ (broadcast_item khash store0 [] signedEvent true LookupResult.found).store.items.length = 1 := by
  refine ⟨by decide, by decide, by decide, by decide⟩

/-- C10: a work item whose computed hash is already in the recent-hash cache
    performs zero chain calls and reports a duplicate outcome (cache and
    store untouched); an absent hash is reserved in the cache before any
    chain action, and after the insertion the cache holds at most 10 entries
    with the oldest (front) entry evicted first. -/
theorem c10_dedup_cache :
    ∀ (keccak : List Nat → Nat) (store : EventStore) (cache : List Nat)
      (ev : TransactionEvent) (submitOk : Bool) (lookup : LookupResult)
      (leg : TransactionLeg) (sd : String) (bytes : List Nat),
    legAndData ev = some (leg, some sd) →
    hexDecode sd = some bytes →
    cache.length ≤ 10 →
    (keccak bytes ∈ cache →
      broadcast_item keccak store cache ev submitOk lookup =
        { ok := true, cache := cache, store := store, actions := [BAction.emitDuplicate] })
    ∧ (keccak bytes ∉ cache →
      (broadcast_item keccak store cache ev submitOk lookup).actions.head? =
          some (BAction.cacheReserve (keccak bytes)) ∧
      BAction.chainSubmit ∈ (broadcast_item keccak store cache ev submitOk lookup).actions ∧
      keccak bytes ∈ (broadcast_item keccak store cache ev submitOk lookup).cache ∧
      (broadcast_item keccak store cache ev submitOk lookup).cache.length ≤ 10 ∧
      (cache.length < 10 →
        (broadcast_item keccak store cache ev submitOk lookup).cache =
          cache ++ [keccak bytes]) ∧
      (cache.length = 10 →
        (broadcast_item keccak store cache ev submitOk lookup).cache =
          cache.tail ++ [keccak bytes])) := by
  intro keccak store cache ev submitOk lookup leg sd bytes hld hhex hlen
  constructor
  · intro hmem
    have hcontains : cache.contains (keccak bytes) = true := by simpa using hmem
    simp only [broadcast_item, hld, hhex, hcontains, if_true]
  · intro hnotin
    have hcontains : cache.contains (keccak bytes) = false := by simpa using hnotin
    have hcache2 :
        (if (cache ++ [keccak bytes]).length > 10 then (cache ++ [keccak bytes]).tail
         else cache ++ [keccak bytes]) =
          (if cache.length = 10 then cache.tail ++ [keccak bytes]
           else cache ++ [keccak bytes]) := by
      by_cases h10 : cache.length = 10
      · rw [if_pos h10, if_pos (by simp [h10])]
        cases cache with
        | nil => simp at h10
        | cons x xs => simp
      · rw [if_neg h10, if_neg (by simp; omega)]
    simp only [broadcast_item, hld, hhex, hcontains, Bool.false_eq_true, if_false, hcache2]
    have hmemres : keccak bytes ∈
        (if cache.length = 10 then cache.tail ++ [keccak bytes]
         else cache ++ [keccak bytes]) := by
      by_cases h10 : cache.length = 10 <;> simp [h10]
    have hlenres :
        (if cache.length = 10 then cache.tail ++ [keccak bytes]
         else cache ++ [keccak bytes]).length ≤ 10 := by
      by_cases h10 : cache.length = 10
      · rw [if_pos h10]
        cases cache with
        | nil => simp at h10
        | cons x xs =>
            simp at h10 ⊢
            omega
      · rw [if_neg h10]
        simp
        omega
    cases submitOk <;> cases lookup <;>
      exact ⟨rfl, by simp, hmemres, hlenres,
        fun hlt => if_neg (by omega),
        fun h10 => if_pos h10⟩

/-- C8 evaluation at the failing input: the projection keys each row by the
    counterparty user id, so the sender (alice) point lookup returns the
    recipient view (Incoming, counterparty alice) instead of her own
    Outgoing view, and symmetrically for the recipient (bob). -/
theorem c8_history_keying_bug :
    ((TransactionHistoryViewManager.project_from_event historyEvent).toOption.bind
        (fun rows =>
          TransactionHistoryViewManager.get_by_bundle_id_for_user rows "alice" "bundle-1")).map
      (fun it => (it.direction, it.counterparty.user_id)) =
        some (Direction.Incoming, "alice")
    ∧ ((TransactionHistoryViewManager.project_from_event historyEvent).toOption.bind
        (fun rows =>
          TransactionHistoryViewManager.get_by_bundle_id_for_user rows "bob" "bundle-1")).map
      (fun it => (it.direction, it.counterparty.user_id)) =
        some (Direction.Outgoing, "bob") := by
  refine ⟨by decide, by decide⟩

/-- C2 witness: the fee leg broadcasts from (Confirm, MainConfirmed), the
    main leg from (Sign, Signed), and a terminal state is rejected. -/
theorem c2_fee_broadcast_ordering_witness :
    (∃ out store', TransactionEvent.on_broadcast store0 confirmMainEvent 7 = (.ok out, store') ∧
      out.leg = some TransactionLeg.Fee)
    ∧ (∃ out store', TransactionEvent.on_broadcast store0 signedEvent 7 = (.ok out, store') ∧
      out.leg = some TransactionLeg.Main)
    ∧ (∃ msg, TransactionEvent.on_broadcast store0 completedEvent 7 =
      (.error (.InvalidTransition msg), store0)) :=
  ⟨(c2_fee_broadcast_ordering store0 confirmMainEvent 7 (by decide)).1.mpr (by decide),
   (c2_fee_broadcast_ordering store0 signedEvent 7 (by decide)).2.1 (by decide),
   (c2_fee_broadcast_ordering store0 completedEvent 7 (by decide)).2.2 (by decide)⟩

/-- C3 witness: a fresh event persists with the store-generated id; an
    already persisted event is rejected. -/
theorem c3_persist_double_write_guard_witness :
    (∃ item, TransactionEventManager.persist store0 initiateEvent =
        .ok (genId store0.next_id,
          { items := store0.items ++ [item], next_id := store0.next_id + 1,
            now := store0.now }) ∧
      item.event_id = genId store0.next_id ∧
      item.bundle_snapshot = initiateEvent.bundle_snapshot ∧
      item.event_type = initiateEvent.event_type ∧
      genId store0.next_id ≠ "")
    ∧ TransactionEventManager.persist store0 persistedEvent =
        .error (.AlreadyPersisted
          ("Attempted to persist an event that already has event_id: " ++
            persistedEvent.event_id)) :=
  ⟨(c3_persist_double_write_guard store0 initiateEvent).1 rfl,
   (c3_persist_double_write_guard store0 persistedEvent).2.1 (by decide)⟩

/-- C4 witness: concrete confirmations for the pending main leg and the
    pending fee leg. -/
theorem c4_confirm_advances_bundle_witness :
    (∃ ev store', confirm_item mainPendingView (.ok mainPendingEvent) (.ok (some okReceipt))
          store0 = (.confirmedEvent ev, store') ∧
      ev.event_type = EventType.Confirm ∧
      ev.bundle_status = some BundleStatus.MainConfirmed ∧
      ev.bundle_snapshot.status = BundleStatus.MainConfirmed ∧
      ev.bundle_snapshot.main_tx.status = TransactionStatus.Confirmed ∧
      ev.bundle_snapshot.main_tx.block_number = okReceipt.block_number ∧
      store'.items.length = store0.items.length + 1)
    ∧ (∃ ev store', finalize_item mainPendingView (.ok feePendingEvent) (.ok (some okReceipt))
          store0 = (.finalizedEvent ev, store') ∧
      ev.event_type = EventType.Confirm ∧
      ev.bundle_status = some BundleStatus.Completed ∧
      ev.bundle_snapshot.status = BundleStatus.Completed ∧
      ev.bundle_snapshot.fee_tx.status = TransactionStatus.Confirmed ∧
      store'.items.length = store0.items.length + 1) :=
  ⟨(c4_confirm_advances_bundle mainPendingView mainPendingEvent okReceipt store0 sampleHashStr
      rfl (by decide)).1 rfl (by decide),
   (c4_confirm_advances_bundle mainPendingView feePendingEvent okReceipt store0 sampleHashStr
      rfl (by decide)).2 rfl (by decide) rfl⟩

/-- C5 witness: a concrete submission failure with an empty recovery lookup
    drives a persisted Fail transition and still acknowledges the item. -/
theorem c5_broadcast_failure_handling_witness :
    (broadcast_item khash store0 [] signedEvent false LookupResult.notFound).ok = false
    ∧ BAction.ackMessage ∈
        (broadcast_item khash store0 [] signedEvent false LookupResult.notFound).actions
    ∧ BAction.emitFatal ∈
        (broadcast_item khash store0 [] signedEvent false LookupResult.notFound).actions
    ∧ (∃ item, (broadcast_item khash store0 [] signedEvent false LookupResult.notFound).store.items =
        store0.items ++ [item] ∧
      item.event_type = EventType.Fail ∧ item.bundle_status = some BundleStatus.Failed ∧
      item.leg = some TransactionLeg.Main ∧
      item.bundle_snapshot.status = BundleStatus.Failed) :=
  (c5_broadcast_failure_handling khash store0 [] signedEvent TransactionLeg.Main "0xab" [171]
    LookupResult.notFound (by decide) (by decide) (by decide)).2 rfl

/-- C6 witness: the amended theorem instantiated at the concrete reverted
    fee receipt. -/
theorem c6_reverted_fee_receipt_skipped_witness :
    finalize_item mainPendingView (.ok feePendingEvent) (.ok (some revertedReceipt)) store0 =
      (FinalizeStep.skipFailedReceipt, store0) :=
  c6_reverted_fee_receipt_skipped mainPendingView feePendingEvent revertedReceipt store0
    sampleHashStr rfl (by decide) rfl (by decide) (by decide)

/-- C7 witness: a concrete legal signing from (Initiate, Initiated), and the
    missing-payload rejection of the factory. -/
theorem c7_signing_guards_witness :
    (∃ ev' store', TransactionEvent.on_signed store0 initiateEvent "0xfee" "0xmain" =
        (.ok ev', store') ∧
      ev'.event_type = EventType.Sign ∧
      ev'.bundle_status = some BundleStatus.Signed ∧
      ev'.bundle_snapshot.status = BundleStatus.Signed ∧
      ev'.bundle_snapshot.fee_tx.signed_tx = some "0xfee" ∧
      ev'.bundle_snapshot.fee_tx.status = TransactionStatus.Signed ∧
      ev'.bundle_snapshot.main_tx.signed_tx = some "0xmain" ∧
      ev'.bundle_snapshot.main_tx.status = TransactionStatus.Signed ∧
      store'.items.length = store0.items.length + 1)
    ∧ TransactionEventFactory.created_signed_event factoryEvent sampleTx 0 =
        .error (.MissingSignatureData "transaction_hash is required for signed state") :=
  ⟨(c7_signing_guards store0 initiateEvent "0xfee" "0xmain" factoryEvent sampleTx 0).2.1 rfl rfl,
   (c7_signing_guards store0 initiateEvent "0xfee" "0xmain" factoryEvent sampleTx 0).2.2 rfl⟩

/-- C10 witness: a concrete duplicate hash is skipped with no chain call,
    and a concrete fresh hash is reserved before the chain call. -/
theorem c10_dedup_cache_witness :
    broadcast_item khash store0 [171] signedEvent true LookupResult.found =
      { ok := true, cache := [171], store := store0, actions := [BAction.emitDuplicate] }
    ∧ (broadcast_item khash store0 [] signedEvent true LookupResult.found).actions.head? =
        some (BAction.cacheReserve 171) :=
  ⟨(c10_dedup_cache khash store0 [171] signedEvent true LookupResult.found TransactionLeg.Main
      "0xab" [171] (by decide) (by decide) (by decide)).1 (by decide),
   ((c10_dedup_cache khash store0 [] signedEvent true LookupResult.found TransactionLeg.Main
      "0xab" [171] (by decide) (by decide) (by decide)).2 (by decide)).1⟩

theorem charValidRange (c : Char) :
    c.toNat < 0xD800 ∨ (0xE000 ≤ c.toNat ∧ c.toNat < 0x110000) := by
  have h := c.valid
  simp only [Char.toNat]
  rcases h with h | h
  · left; omega
  · right; omega

theorem utf8Step_one (n : Nat) (h : n < 0x80) (rest : List Nat) :
    utf8Step (n :: rest) = some (Char.ofNat n, rest) := by
  simp only [utf8Step]
  rw [if_pos h]

theorem utf8Step_two (n : Nat) (h1 : 0x80 ≤ n) (h2 : n < 0x800) (rest : List Nat) :
    utf8Step ((0xC0 + n / 0x40) :: (0x80 + n % 0x40) :: rest) =
      some (Char.ofNat n, rest) := by
  simp only [utf8Step]
  rw [if_neg (show ¬ (0xC0 + n / 0x40 < 0x80) by omega),
      if_neg (show ¬ (0xC0 + n / 0x40 < 0xC2) by omega),
      if_pos (show 0xC0 + n / 0x40 < 0xE0 by omega)]
  rw [if_pos (show 0x80 ≤ 0x80 + n % 0x40 ∧ 0x80 + n % 0x40 < 0xC0 by omega)]
  have harg : (0xC0 + n / 0x40 - 0xC0) * 0x40 + (0x80 + n % 0x40 - 0x80) = n := by omega
  rw [harg]

theorem utf8Step_three (n : Nat) (h1 : 0x800 ≤ n) (h2 : n < 0x10000)
    (hs : n < 0xD800 ∨ 0xE000 ≤ n) (rest : List Nat) :
    utf8Step
      ((0xE0 + n / 0x1000) :: (0x80 + n / 0x40 % 0x40) :: (0x80 + n % 0x40) :: rest) =
      some (Char.ofNat n, rest) := by
  simp only [utf8Step]
  rw [if_neg (show ¬ (0xE0 + n / 0x1000 < 0x80) by omega),
      if_neg (show ¬ (0xE0 + n / 0x1000 < 0xC2) by omega),
      if_neg (show ¬ (0xE0 + n / 0x1000 < 0xE0) by omega),
      if_pos (show 0xE0 + n / 0x1000 < 0xF0 by omega)]
  rw [if_pos (show (0x80 ≤ 0x80 + n / 0x40 % 0x40 ∧ 0x80 + n / 0x40 % 0x40 < 0xC0) ∧
        (0x80 ≤ 0x80 + n % 0x40 ∧ 0x80 + n % 0x40 < 0xC0) by omega)]
  have harg : (0xE0 + n / 0x1000 - 0xE0) * 0x1000 +
      (0x80 + n / 0x40 % 0x40 - 0x80) * 0x40 + (0x80 + n % 0x40 - 0x80) = n := by omega
  rw [harg]
  rw [if_pos (show 0x800 ≤ n ∧ (n < 0xD800 ∨ 0xE000 ≤ n) from ⟨h1, hs⟩)]

theorem utf8Step_four (n : Nat) (h1 : 0x10000 ≤ n) (h2 : n < 0x110000) (rest : List Nat) :
    utf8Step
      ((0xF0 + n / 0x40000) :: (0x80 + n / 0x1000 % 0x40) ::
        (0x80 + n / 0x40 % 0x40) :: (0x80 + n % 0x40) :: rest) =
      some (Char.ofNat n, rest) := by
  simp only [utf8Step]
  rw [if_neg (show ¬ (0xF0 + n / 0x40000 < 0x80) by omega),
      if_neg (show ¬ (0xF0 + n / 0x40000 < 0xC2) by omega),
      if_neg (show ¬ (0xF0 + n / 0x40000 < 0xE0) by omega),
      if_neg (show ¬ (0xF0 + n / 0x40000 < 0xF0) by omega),
      if_pos (show 0xF0 + n / 0x40000 < 0xF5 by omega)]
  rw [if_pos (show (0x80 ≤ 0x80 + n / 0x1000 % 0x40 ∧ 0x80 + n / 0x1000 % 0x40 < 0xC0) ∧
        (0x80 ≤ 0x80 + n / 0x40 % 0x40 ∧ 0x80 + n / 0x40 % 0x40 < 0xC0) ∧
        (0x80 ≤ 0x80 + n % 0x40 ∧ 0x80 + n % 0x40 < 0xC0) by omega)]
  have harg : (0xF0 + n / 0x40000 - 0xF0) * 0x40000 +
      (0x80 + n / 0x1000 % 0x40 - 0x80) * 0x1000 +
      (0x80 + n / 0x40 % 0x40 - 0x80) * 0x40 + (0x80 + n % 0x40 - 0x80) = n := by omega
  rw [harg]
  rw [if_pos (show 0x10000 ≤ n ∧ n < 0x110000 from ⟨h1, h2⟩)]

theorem utf8Step_encodeChar (c : Char) (rest : List Nat) :
    utf8Step (utf8EncodeChar c ++ rest) = some (c, rest) := by
  have hv := charValidRange c
  by_cases h1 : c.toNat < 0x80
  · have he : utf8EncodeChar c = [c.toNat] := by
      simp only [utf8EncodeChar]
      rw [if_pos h1]
    rw [he]
    simp only [List.cons_append, List.nil_append]
    rw [utf8Step_one _ h1 rest, Char.ofNat_toNat]
  by_cases h2 : c.toNat < 0x800
  · have he : utf8EncodeChar c = [0xC0 + c.toNat / 0x40, 0x80 + c.toNat % 0x40] := by
      simp only [utf8EncodeChar]
      rw [if_neg h1, if_pos h2]
    rw [he]
    simp only [List.cons_append, List.nil_append]
    rw [utf8Step_two _ (by omega) h2 rest, Char.ofNat_toNat]
  by_cases h3 : c.toNat < 0x10000
  · have he : utf8EncodeChar c =
        [0xE0 + c.toNat / 0x1000, 0x80 + c.toNat / 0x40 % 0x40, 0x80 + c.toNat % 0x40] := by
      simp only [utf8EncodeChar]
      rw [if_neg h1, if_neg h2, if_pos h3]
    rw [he]
    simp only [List.cons_append, List.nil_append]
    rw [utf8Step_three _ (by omega) h3 (by omega) rest, Char.ofNat_toNat]
  · have he : utf8EncodeChar c =
        [0xF0 + c.toNat / 0x40000, 0x80 + c.toNat / 0x1000 % 0x40,
         0x80 + c.toNat / 0x40 % 0x40, 0x80 + c.toNat % 0x40] := by
      simp only [utf8EncodeChar]
      rw [if_neg h1, if_neg h2, if_neg h3]
    rw [he]
    simp only [List.cons_append, List.nil_append]
    rw [utf8Step_four _ (by omega) (by omega) rest, Char.ofNat_toNat]

theorem utf8EncodeChar_length_pos (c : Char) : 1 ≤ (utf8EncodeChar c).length := by
  simp only [utf8EncodeChar]
  split_ifs <;> simp

theorem utf8DecodeLoop_encode (cs : List Char) :
    ∀ fuel, cs.length ≤ fuel → utf8DecodeLoop fuel (utf8Encode cs) = some cs := by
  induction cs with
  | nil =>
      intro fuel h
      cases fuel <;> rfl
  | cons c cs ih =>
      intro fuel h
      cases fuel with
      | zero => simp at h
      | succ f =>
          obtain ⟨b, l, hb⟩ :
              ∃ b l, utf8EncodeChar c ++ utf8Encode cs = b :: l := by
            cases hco : utf8EncodeChar c with
            | nil =>
                have := utf8EncodeChar_length_pos c
                rw [hco] at this
                simp at this
            | cons x xs => exact ⟨x, xs ++ utf8Encode cs, by simp⟩
          have henc : utf8Encode (c :: cs) = b :: l := by
            simp only [utf8Encode]
            exact hb
          rw [henc, utf8DecodeLoop, ← hb, utf8Step_encodeChar]
          simp only []
          rw [ih f (by simpa using h)]
          rfl

theorem utf8Encode_length_ge (cs : List Char) : cs.length ≤ (utf8Encode cs).length := by
  induction cs with
  | nil => simp [utf8Encode]
  | cons c cs ih =>
      simp only [utf8Encode, List.length_append, List.length_cons]
      have := utf8EncodeChar_length_pos c
      omega

theorem utf8Decode_utf8Encode (cs : List Char) : utf8Decode (utf8Encode cs) = some cs :=
  utf8DecodeLoop_encode cs _ (utf8Encode_length_ge cs)

theorem utf8EncodeChar_lt (c : Char) : ∀ b ∈ utf8EncodeChar c, b < 256 := by
  have hv := charValidRange c
  intro b hb
  simp only [utf8EncodeChar] at hb
  split_ifs at hb <;> simp at hb <;> omega

theorem utf8Encode_lt (cs : List Char) : ∀ b ∈ utf8Encode cs, b < 256 := by
  induction cs with
  | nil => simp [utf8Encode]
  | cons c cs ih =>
      intro b hb
      simp only [utf8Encode, List.mem_append] at hb
      rcases hb with hb | hb
      · exact utf8EncodeChar_lt c b hb
      · exact ih b hb

theorem b64Val_b64Char : ∀ n, n < 64 → b64Val (b64Char n) = some n := by decide

theorem b64Char_ne_pad : ∀ n, n < 64 → b64Char n ≠ '=' := by decide

theorem b64Decode_b64Encode :
    ∀ (bs : List Nat), (∀ b ∈ bs, b < 256) → b64Decode (b64Encode bs) = some bs
  | [], _ => rfl
  | [a], h => by
      have ha : a < 256 := h a (by simp)
      simp only [b64Encode, b64Decode]
      rw [b64Val_b64Char _ (by omega), b64Val_b64Char _ (by omega)]
      simp [show a % 4 * 16 % 16 = 0 by omega]
      all_goals omega
  | [a, b], h => by
      have ha : a < 256 := h a (by simp)
      have hb : b < 256 := h b (by simp)
      simp only [b64Encode, b64Decode]
      rw [b64Val_b64Char _ (by omega), b64Val_b64Char _ (by omega)]
      simp [b64Char_ne_pad (b % 16 * 4) (by omega),
        b64Val_b64Char (b % 16 * 4) (by omega),
        show b % 16 * 4 % 4 = 0 by omega]
      all_goals omega
  | [a, b, c], h => by
      have ha : a < 256 := h a (by simp)
      have hb : b < 256 := h b (by simp)
      have hc : c < 256 := h c (by simp)
      simp only [b64Encode, b64Decode]
      rw [b64Val_b64Char _ (by omega), b64Val_b64Char _ (by omega)]
      simp [b64Char_ne_pad (b % 16 * 4 + c / 64) (by omega),
        b64Val_b64Char (b % 16 * 4 + c / 64) (by omega),
        b64Char_ne_pad (c % 64) (by omega),
        b64Val_b64Char (c % 64) (by omega)]
      all_goals omega
  | a :: b :: c :: d :: rest, h => by
      have ha : a < 256 := h a (by simp)
      have hb : b < 256 := h b (by simp)
      have hc : c < 256 := h c (by simp)
      simp only [b64Encode, b64Decode]
      rw [b64Val_b64Char _ (by omega), b64Val_b64Char _ (by omega)]
      rw [b64Decode_b64Encode (d :: rest) (fun x hx => h x (by simp at hx ⊢; tauto))]
      simp [b64Char_ne_pad (b % 16 * 4 + c / 64) (by omega),
        b64Val_b64Char (b % 16 * 4 + c / 64) (by omega),
        b64Char_ne_pad (c % 64) (by omega),
        b64Val_b64Char (c % 64) (by omega)]
      all_goals omega
termination_by bs _ => bs.length

theorem hexDigit_hexCharOf : ∀ n, n < 16 → hexDigit (hexCharOf n) = some n := by
  decide

theorem jsonStrStep_escape (c : Char) (rest : List Char) :
    jsonStrStep (jsonEscapeChar c ++ rest) = some (some c, rest) := by
  by_cases hq : c = '\"'
  · subst hq; rfl
  by_cases hbs : c = '\\'
  · subst hbs; rfl
  by_cases h8 : c.toNat = 8
  · have hc : c = Char.ofNat 8 := by rw [← Char.ofNat_toNat c, h8]
    rw [hc]; rfl
  by_cases h9 : c.toNat = 9
  · have hc : c = Char.ofNat 9 := by rw [← Char.ofNat_toNat c, h9]
    rw [hc]; rfl
  by_cases h10 : c.toNat = 10
  · have hc : c = Char.ofNat 10 := by rw [← Char.ofNat_toNat c, h10]
    rw [hc]; rfl
  by_cases h12 : c.toNat = 12
  · have hc : c = Char.ofNat 12 := by rw [← Char.ofNat_toNat c, h12]
    rw [hc]; rfl
  by_cases h13 : c.toNat = 13
  · have hc : c = Char.ofNat 13 := by rw [← Char.ofNat_toNat c, h13]
    rw [hc]; rfl
  by_cases hlt : c.toNat < 32
  · have he : jsonEscapeChar c =
        ['\\', 'u', '0', '0', hexCharOf (c.toNat / 16), hexCharOf (c.toNat % 16)] := by
      simp only [jsonEscapeChar]
      rw [if_neg hq, if_neg hbs, if_neg h8, if_neg h9, if_neg h10, if_neg h12, if_neg h13,
        if_pos hlt]
    rw [he]
    simp only [List.cons_append, List.nil_append]
    simp only [jsonStrStep, Char.reduceEq, reduceIte]
    simp only [hexDigit_hexCharOf _ (show c.toNat / 16 < 16 by omega),
      hexDigit_hexCharOf _ (show c.toNat % 16 < 16 by omega),
      show hexDigit '0' = some 0 from rfl]
    rw [show (0 : Nat) * 4096 + 0 * 256 + c.toNat / 16 * 16 + c.toNat % 16 = c.toNat by omega]
    rw [if_pos (show c.toNat < 0xD800 by omega), Char.ofNat_toNat]
  · have he : jsonEscapeChar c = [c] := by
      simp only [jsonEscapeChar]
      rw [if_neg hq, if_neg hbs, if_neg h8, if_neg h9, if_neg h10, if_neg h12, if_neg h13,
        if_neg hlt]
    rw [he]
    simp only [List.cons_append, List.nil_append]
    simp only [jsonStrStep]
    rw [if_neg hq, if_neg hbs, if_neg hlt]

theorem jsonEscapeChar_length_pos (c : Char) : 1 ≤ (jsonEscapeChar c).length := by
  simp only [jsonEscapeChar]
  split_ifs <;> simp

theorem jsonSerStrAux_length (s : List Char) :
    s.length + 1 ≤ (jsonSerStrAux s).length := by
  induction s with
  | nil => simp [jsonSerStrAux]
  | cons c cs ih =>
      simp only [jsonSerStrAux, List.length_append, List.length_cons]
      have := jsonEscapeChar_length_pos c
      omega

theorem jsonParseStrLoop_ser (s : List Char) :
    ∀ (fuel : Nat) (rest : List Char), s.length + 1 ≤ fuel →
      jsonParseStrLoop fuel (jsonSerStrAux s ++ rest) = some (s, rest) := by
  induction s with
  | nil =>
      intro fuel rest h
      cases fuel with
      | zero => exact absurd h (by omega)
      | succ f => rfl
  | cons c cs ih =>
      intro fuel rest h
      cases fuel with
      | zero => simp at h
      | succ f =>
          have hassoc : jsonSerStrAux (c :: cs) ++ rest =
              jsonEscapeChar c ++ (jsonSerStrAux cs ++ rest) := by
            simp [jsonSerStrAux, List.append_assoc]
          rw [hassoc, jsonParseStrLoop, jsonStrStep_escape]
          show Option.map (fun p => (c :: p.1, p.2))
              (jsonParseStrLoop f (jsonSerStrAux cs ++ rest)) = some (c :: cs, rest)
          rw [ih f rest (by simp at h; omega)]
          rfl

theorem jsonParseStrAux_ser (s rest : List Char) :
    jsonParseStrAux (jsonSerStrAux s ++ rest) = some (s, rest) := by
  unfold jsonParseStrAux
  apply jsonParseStrLoop_ser
  have := jsonSerStrAux_length s
  simp only [List.length_append]
  omega

theorem jsonSerStr_length (s : List Char) : 2 ≤ (jsonSerStr s).length := by
  simp only [jsonSerStr, List.length_cons]
  have := jsonSerStrAux_length s
  omega

theorem jsonSerObjMore_length (m : List (List Char × List Char)) :
    m.length + 1 ≤ (jsonSerObjMore m).length := by
  induction m with
  | nil => simp [jsonSerObjMore]
  | cons kv t ih =>
      obtain ⟨k, v⟩ := kv
      simp only [jsonSerObjMore, List.length_cons, List.length_append]
      have h1 := jsonSerStr_length k
      have h2 := jsonSerStr_length v
      omega

theorem jsonParseEntries_ser :
    ∀ (m : List (List Char × List Char)) (k v : List Char) (fuel : Nat),
      m.length < fuel →
      jsonParseEntries fuel (jsonSerStr k ++ (':' :: (jsonSerStr v ++ jsonSerObjMore m))) =
        some ((k, v) :: m) := by
  intro m
  induction m with
  | nil =>
      intro k v fuel h
      cases fuel with
      | zero => simp at h
      | succ f =>
          have hshape : jsonSerStr k ++ (':' :: (jsonSerStr v ++ jsonSerObjMore [])) =
              '\"' :: (jsonSerStrAux k ++ (':' :: ('\"' :: (jsonSerStrAux v ++ ['\x7d'])))) := by
            simp [jsonSerStr, jsonSerObjMore, List.append_assoc]
          rw [hshape, jsonParseEntries, jsonParseStrAux_ser]
          simp only []
          rw [jsonParseStrAux_ser]
          rfl
  | cons hd t ih =>
      intro k v fuel h
      cases fuel with
      | zero => simp at h
      | succ f =>
          obtain ⟨k2, v2⟩ := hd
          have hshape : jsonSerStr k ++ (':' :: (jsonSerStr v ++ jsonSerObjMore ((k2, v2) :: t))) =
              '\"' :: (jsonSerStrAux k ++ (':' :: ('\"' :: (jsonSerStrAux v ++
                (',' :: (jsonSerStr k2 ++ (':' :: (jsonSerStr v2 ++ jsonSerObjMore t)))))))) := by
            simp [jsonSerStr, jsonSerObjMore, List.append_assoc]
          rw [hshape, jsonParseEntries, jsonParseStrAux_ser]
          simp only []
          rw [jsonParseStrAux_ser]
          simp only []
          rw [ih k2 v2 f (by simp at h ⊢; omega)]

theorem jsonParseObj_ser (m : List (List Char × List Char)) :
    jsonParseObj (jsonSerObj m) = some m := by
  cases m with
  | nil => rfl
  | cons hd t =>
      obtain ⟨k, v⟩ := hd
      have hrest : jsonSerStr k ++ (':' :: (jsonSerStr v ++ jsonSerObjMore t)) =
          '\"' :: (jsonSerStrAux k ++ (':' :: (jsonSerStr v ++ jsonSerObjMore t))) := by
        simp [jsonSerStr]
      have hobj : jsonSerObj ((k, v) :: t) =
          '\x7b' :: (jsonSerStr k ++ (':' :: (jsonSerStr v ++ jsonSerObjMore t))) := rfl
      rw [hobj]
      simp only [jsonParseObj]
      rw [hrest]
      rw [← hrest]
      have hbound : t.length <
          ('\x7b' :: (jsonSerStr k ++ (':' :: (jsonSerStr v ++ jsonSerObjMore t)))).length := by
        have h1 := jsonSerStr_length k
        have h2 := jsonSerStr_length v
        have h3 := jsonSerObjMore_length t
        simp only [List.length_cons, List.length_append]
        omega
      rw [jsonParseEntries_ser t k v _ hbound]
      rw [hrest]
      rfl

theorem pageToken_map_back (key : List (String × AttributeValue))
    (h : ∀ kv ∈ key, (kv.2.as_s).isSome = true) :
    ((key.filterMap (fun kv => (kv.2.as_s).map (fun s => (kv.1, s)))).map
        (fun kv => (kv.1.data, kv.2.data))).map
      (fun kv => (String.mk kv.1, AttributeValue.S (String.mk kv.2))) = key := by
  induction key with
  | nil => rfl
  | cons kv rest ih =>
      obtain ⟨k1, k2⟩ := kv
      have hkv := h (k1, k2) (by simp)
      have ih2 := ih (fun x hx => h x (by simp [hx]))
      cases k2 with
      | S s =>
          simp only [List.map_map, AttributeValue.as_s] at ih2
          simp [List.filterMap_cons, AttributeValue.as_s, ih2]
      | N s => simp [AttributeValue.as_s] at hkv

/-- C9: decode_page_token inverts encode_page_token on every key map whose
    attribute values are all strings, for both the Status View and the
    History View implementations of the pagination-token pair. -/
theorem c9_page_token_roundtrip :
    ∀ (key : List (String × AttributeValue)),
    (∀ kv ∈ key, (kv.2.as_s).isSome = true) →
    TransactionStatusViewManager.decode_page_token
        (TransactionStatusViewManager.encode_page_token key) = some key
    ∧ TransactionHistoryViewManager.decode_page_token
        (TransactionHistoryViewManager.encode_page_token key) = some key := by
  intro key h
  have hcore : pageTokenDecode (pageTokenEncode key) = some key := by
    unfold pageTokenEncode pageTokenDecode
    have hdata : ∀ l : List Char, (List.asString l).data = l := fun l => rfl
    rw [hdata, b64Decode_b64Encode _ (utf8Encode_lt _)]
    simp only [Option.some_bind]
    rw [utf8Decode_utf8Encode]
    simp only [Option.some_bind]
    rw [jsonParseObj_ser]
    simp only [Option.map_some']
    rw [pageToken_map_back key h]
  exact ⟨hcore, hcore⟩

/-- C9 witness: the round trip at a concrete two-entry key map. -/
theorem c9_page_token_roundtrip_witness :
    TransactionStatusViewManager.decode_page_token
        (TransactionStatusViewManager.encode_page_token sampleKey) = some sampleKey
    ∧ TransactionHistoryViewManager.decode_page_token
        (TransactionHistoryViewManager.encode_page_token sampleKey) = some sampleKey :=
  c9_page_token_roundtrip sampleKey (by decide)
